import Mathlib

/-!
Verification of the Kodi backup/restore engine (`backup_engine.py`).

The engine is embedded shallowly:

* Python strings are `List Char` (`Str`); archive member names and progress
  messages keep their exact character content.
* Filesystem paths are lists of path segments (`List Str`), read as absolute
  POSIX paths rooted at `/` (so `[]` is the filesystem root, `os.path.normcase`
  is the identity, and `\` is an ordinary file-name character).
* The filesystem is a `World`: a list of directory paths plus an association
  list from file paths to byte contents.
* Fallible I/O actions that the Python code guards with `try`/`except` are
  driven by explicit oracle parameters (per-file read errors, per-path deletion
  failures, mkdir/zip-open success flags); an uncaught Python exception is an
  `Except.error`.

Each definition mirrors the correspondingly named function of
`backup_engine.py`.
-/

namespace KodiBackup

/-- A Python string, as its list of characters. -/
abbrev Str := List Char

/-- Shorthand turning a Lean string literal into a `Str`. -/
def str (s : String) : Str := s.data

/-- File contents, as a list of bytes. -/
abbrev Data := List Nat

/-- Python `name.replace("\\", "/")`. -/
def replaceBackslash (s : Str) : Str :=
  s.map (fun c => if c = '\\' then '/' else c)

/-- Split a string on `/` separators, Python `s.split("/")` style:
the empty string yields `[""]`, separators at the ends yield empty segments. -/
def splitOnSlash (s : Str) : List Str :=
  match s with
  | [] => [[]]
  | c :: rest =>
    if c = '/' then [] :: splitOnSlash rest
    else
      match splitOnSlash rest with
      | [] => [[c]]
      | seg :: segs => (c :: seg) :: segs

/-- Join path segments with `/` separators (`"/".join(segs)`). -/
def joinSlash : List Str → Str
  | [] => []
  | [s] => s
  | s :: rest => s ++ '/' :: joinSlash rest

/-- One step of lexical path normalization: empty and `.` segments vanish,
`..` pops the previous segment (at the root, `..` is dropped). -/
def normStep (acc : List Str) (seg : Str) : List Str :=
  if seg = [] then acc
  else if seg = ['.'] then acc
  else if seg = ['.', '.'] then acc.dropLast
  else acc ++ [seg]

/-- Lexical normalization of the segment list of an absolute POSIX path, as
performed by `os.path.abspath`/`os.path.normpath`. -/
def normpathSegs (segs : List Str) : List Str :=
  segs.foldl normStep []

/-- The longest common segment prefix of two absolute paths, the two-argument
case of `os.path.commonpath` on already-normalized absolute POSIX paths. -/
def commonSegs : List Str → List Str → List Str
  | x :: xs, y :: ys => if x = y then x :: commonSegs xs ys else []
  | _, _ => []

/-- Whether the (already backslash-normalized) member name starts with a path
separator, `normalized.startswith("/") or normalized.startswith("\\")`. -/
def startsWithSep (s : Str) : Bool :=
  match s with
  | c :: _ => c = '/' || c = '\\'
  | [] => false

/-- Whether the member name starts with a drive-letter prefix,
Python `re.match(r"^[A-Za-z]:", normalized)`. -/
def startsWithDrive (s : Str) : Bool :=
  match s with
  | a :: b :: _ => a.isAlpha && b = ':'
  | _ => false

/-- `KodiBackupEngine._is_safe_zip_member`: `True` iff the zip member path is
safe to extract within `target_dir`.  `target_dir` is given as the segment
list of the target path; `os.path.abspath` on it is `normpathSegs`, and
`os.path.normcase` is the identity on POSIX. -/
def is_safe_zip_member (targetDir : List Str) (memberName : Str) : Bool :=
  if memberName = [] then false
  else
    let normalized := replaceBackslash memberName
    if startsWithSep normalized then false
    else if startsWithDrive normalized then false
    else
      let targetAbs := normpathSegs targetDir
      let memberAbs := normpathSegs (targetAbs ++ splitOnSlash normalized)
      commonSegs targetAbs memberAbs = targetAbs

/-- Lowercase a string, Python `s.lower()` (ASCII-faithful). -/
def lowerStr (s : Str) : Str := s.map Char.toLower

/-- The first path segment of a normalized member name,
Python `f.split('/', 1)[0]`. -/
def firstSegOf (f : Str) : Str := f.takeWhile (fun c => c ≠ '/')

/-- Whether a member name denotes a directory entry: `ZipInfo.is_dir()` is
true exactly when the stored filename ends in `/`. -/
def endsWithSlash (s : Str) : Bool := s.getLast? = some '/'

/-- The extension of the final component of a path string, with the semantics
of `pathlib.PurePath.suffix`: the part from the last dot on, except that a
leading or trailing dot yields no suffix. -/
def pathSuffix (p : Str) : Str :=
  let name := (splitOnSlash p).getLastD []
  match name.reverse.findIdx? (fun c => c = '.') with
  | none => []
  | some j =>
    let i := name.length - 1 - j
    if 0 < i ∧ i < name.length - 1 then name.drop i else []

/-- A snapshot of the filesystem: the set of directories that exist, and an
association list from file paths to file contents.  All paths are absolute
segment lists. -/
structure World where
  dirs : List (List Str)
  files : List (List Str × Data)
deriving DecidableEq, Repr

/-- Python `Path(p).exists()`: the path is a directory or a file. -/
def existsPath (w : World) (p : List Str) : Bool :=
  decide (p ∈ w.dirs) || w.files.any (fun f => f.1 = p)

/-- Python `Path(p).is_dir()`. -/
def isDirPath (w : World) (p : List Str) : Bool :=
  decide (p ∈ w.dirs)

/-- The files lying strictly inside directory `p`, in storage order: the
regular files reported by `os.walk(p)`. -/
def filesUnder (w : World) (p : List Str) : List (List Str × Data) :=
  w.files.filter (fun f => p.isPrefixOf f.1 && f.1 ≠ p)

/-- Every nonempty prefix of a path: the chain of directories that
`mkdir(parents=True)` ensures. -/
def prefixChain (p : List Str) : List (List Str) :=
  (List.range p.length).map (fun i => p.take (i + 1))

/-- Python `Path(p).mkdir(parents=True, exist_ok=True)`. -/
def mkdirParents (w : World) (p : List Str) : World :=
  { w with dirs := w.dirs ++ (prefixChain p).filter (fun a => ¬ a ∈ w.dirs) }

/-- Replace the binding of `p` (or append a fresh one) in a file map. -/
def setFileKey : List (List Str × Data) → List Str → Data → List (List Str × Data)
  | [], p, d => [(p, d)]
  | f :: fs, p, d => if f.1 = p then (p, d) :: fs else f :: setFileKey fs p d

/-- Create the parent directories of `p` and write file contents `d` at `p`. -/
def writeFile (w : World) (p : List Str) (d : Data) : World :=
  let w' := mkdirParents w p.dropLast
  { w' with files := setFileKey w'.files p d }

/-- Python `shutil.rmtree(p)`: remove the directory `p` and everything
beneath it. -/
def removeSubtree (w : World) (p : List Str) : World :=
  { dirs := w.dirs.filter (fun d => ¬ p.isPrefixOf d),
    files := w.files.filter (fun f => ¬ p.isPrefixOf f.1) }

/-- Python `Path(p).unlink()`: remove the single file `p`. -/
def removeFileAt (w : World) (p : List Str) : World :=
  { w with files := w.files.filter (fun f => f.1 ≠ p) }

/-- One archive member: its stored filename and uncompressed contents.
`ZipInfo.file_size` is `data.length`. -/
structure ZEntry where
  name : Str
  data : Data
deriving DecidableEq, Repr

/-- What opening the backup file yields: the file may be absent, fail to open
as a zip (`zipfile.BadZipFile`), fail with some other exception, or open onto
a member list. -/
inductive ArchiveFile where
  | missing
  | badZip
  | openErr (msg : String)
  | ok (entries : List ZEntry)
deriving DecidableEq, Repr

/-- A backup file as seen by the engine: its path string plus what opening
it yields. -/
structure BackupFile where
  path : Str
  content : ArchiveFile
deriving DecidableEq, Repr

/-- Whether `backup_file.exists()` holds. -/
def archPresent : ArchiveFile → Bool
  | .missing => false
  | _ => true

/-- Result record of `validate_backup_file`. -/
structure ValidationRec where
  valid : Bool
  error_message : String
  userdata_files : Nat
  addons_files : Nat
  total_size : Nat
  error_logged : Bool
deriving DecidableEq, Repr

/-- The all-false/empty initial `results` dict of `validate_backup_file`. -/
def ValidationRec.init : ValidationRec :=
  { valid := false, error_message := "", userdata_files := 0,
    addons_files := 0, total_size := 0, error_logged := false }

/-- `KodiBackupEngine.validate_backup_file`. -/
def validate_backup_file (bf : BackupFile) : ValidationRec :=
  if ¬ archPresent bf.content then
    { ValidationRec.init with
      error_message := "Backup file not found: " ++ String.mk bf.path }
  else if ¬ (lowerStr (pathSuffix bf.path) = str ".zip") then
    { ValidationRec.init with
      error_message := "Backup file must be a ZIP archive" }
  else
    match bf.content with
    | .missing =>
      { ValidationRec.init with
        error_message := "Backup file not found: " ++ String.mk bf.path }
    | .badZip =>
      { ValidationRec.init with
        error_message := "File is not a valid ZIP archive" }
    | .openErr e =>
      { ValidationRec.init with
        error_message := "Error validating backup file: " ++ e }
    | .ok entries =>
      let normalizedList := entries.map (fun e => replaceBackslash e.name)
      let hasUserdata := normalizedList.any (fun f => firstSegOf f = str "userdata")
      let hasAddons := normalizedList.any (fun f => firstSegOf f = str "addons")
      if ¬ (hasUserdata && hasAddons) then
        { ValidationRec.init with
          error_message :=
            "Backup file does not contain required directories: userdata/ and/or addons/",
          error_logged := true }
      else
        { ValidationRec.init with
          valid := true
          userdata_files :=
            (normalizedList.filter
              (fun f => (str "userdata/").isPrefixOf f && ¬ endsWithSlash f)).length
          addons_files :=
            (normalizedList.filter
              (fun f => (str "addons/").isPrefixOf f && ¬ endsWithSlash f)).length
          total_size :=
            (entries.filter (fun e => ¬ endsWithSlash e.name)).foldl
              (fun n e => n + e.data.length) 0 }

/-- The two top-level subtrees that get archived,
`[kodi_dir / "userdata", kodi_dir / "addons"]`. -/
def backupSubdirs (kodiPath : List Str) : List (List Str) :=
  [kodiPath ++ [str "userdata"], kodiPath ++ [str "addons"]]

/-- Accumulator of the archive-writing loop of `create_backup_archive`. -/
structure BuildAcc where
  current : Nat
  lastUpd : Nat
  total : Nat
  skipped : Nat
  examples : List (Str × String)
  entries : List ZEntry
  msgs : List String
deriving DecidableEq, Repr

/-- Everything `create_backup_archive` produces: its `(success, total)` return
value, the archive it wrote, the skip accounting, and the progress lines. -/
structure BuildResult where
  success : Bool
  totalSize : Nat
  entries : List ZEntry
  skipped : Nat
  examples : List (Str × String)
  msgs : List String
deriving DecidableEq, Repr

/-- The per-file body of the archive-writing loop.  `readErr f` is the
exception raised while sizing or writing file `f`, if any: on an error the
file is skipped and counted, with at most 10 example reasons retained. -/
def buildFileStep (readErr : List Str → Option String) (totalFiles : Nat)
    (kodiPath : List Str) (acc : BuildAcc) (f : List Str × Data) : BuildAcc :=
  let arcname := replaceBackslash (joinSlash (f.1.drop kodiPath.length))
  match readErr f.1 with
  | some e =>
    { acc with
      skipped := acc.skipped + 1,
      examples :=
        if acc.examples.length < 10 then acc.examples ++ [(arcname, e)]
        else acc.examples }
  | none =>
    let current := acc.current + 1
    if current - acc.lastUpd ≥ 1000 then
      { acc with
        current := current, lastUpd := current,
        total := acc.total + f.2.length,
        entries := acc.entries ++ [⟨arcname, f.2⟩],
        msgs := acc.msgs ++
          ["Processing... " ++ toString current ++ "/" ++ toString totalFiles ++
            " files archived"] }
    else
      { acc with
        current := current,
        total := acc.total + f.2.length,
        entries := acc.entries ++ [⟨arcname, f.2⟩] }

/-- The body of `create_backup_archive` from the `try:` onwards, i.e. after
the destination directory has been ensured.  `zipOpenOk` is whether opening
the destination archive for writing succeeds; when it does not, the wrapping
`except` turns the failure into `(False, 0)`. -/
def buildBody (w : World) (kodiPath : List Str) (filename : String)
    (readErr : List Str → Option String) (zipOpenOk : Bool) : BuildResult :=
  let totalFiles := (backupSubdirs kodiPath).foldl
    (fun n d => if existsPath w d then n + (filesUnder w d).length else n) 0
  let msgs0 := ["Creating backup archive...", "Output: " ++ filename, ""]
  if ¬ zipOpenOk then
    { success := false, totalSize := 0, entries := [], skipped := 0, examples := [],
      msgs := msgs0 ++
        ["ERROR: Failed to create backup archive: cannot open archive for writing"] }
  else
    let acc0 : BuildAcc :=
      { current := 0, lastUpd := 0, total := 0, skipped := 0, examples := [],
        entries := [], msgs := msgs0 }
    let acc := (backupSubdirs kodiPath).foldl
      (fun acc d =>
        if existsPath w d then
          let acc' := { acc with
            msgs := acc.msgs ++
              ["Backing up " ++ String.mk (d.getLastD []) ++ " directory..."] }
          (filesUnder w d).foldl (buildFileStep readErr totalFiles kodiPath) acc'
        else acc) acc0
    let doneMsg :=
      "ZIP creation completed with " ++ toString acc.skipped ++ " skipped files"
    let skipMsgs :=
      if acc.skipped > 0 then
        acc.examples.map
          (fun p => "Skipped: " ++ String.mk p.1 ++ " (" ++ p.2 ++ ")")
      else []
    { success := true, totalSize := acc.total, entries := acc.entries,
      skipped := acc.skipped, examples := acc.examples,
      msgs := acc.msgs ++ [doneMsg] ++ skipMsgs }

/-- `KodiBackupEngine.create_backup_archive`.  The
`backup_dir.mkdir(parents=True, exist_ok=True)` call sits before the `try:`
block, so its failure (`mkdirOk = false`) escapes as an exception
(`Except.error`) instead of a `(False, 0)` return. -/
def create_backup_archive (w : World) (kodiPath : List Str) (filename : String)
    (readErr : List Str → Option String) (mkdirOk : Bool) (zipOpenOk : Bool) :
    Except String BuildResult :=
  if mkdirOk then .ok (buildBody w kodiPath filename readErr zipOpenOk)
  else .error "cannot create backup destination directory"

/-- State of the extraction loop of `extract_backup_with_progress`. -/
structure ExtractSt where
  w : World
  extracted : Nat
  skipped : Nat
  udBanner : Bool
  adBanner : Bool
  msgs : List String
deriving Repr

/-- Where `target_dir / name` lands once the operating system resolves the
joined path (lexically, symlinks being out of scope). -/
def destSegsOf (target : List Str) (name : Str) : List Str :=
  normpathSegs (target ++ splitOnSlash name)

/-- The member loop of `extract_backup_with_progress`: directories are
skipped, the first unsafe member aborts the whole extraction, and safe
members are streamed to disk under their normalized names. -/
def extractLoop (target : List Str) (totalFiles : Nat) :
    List ZEntry → ExtractSt → Bool × ExtractSt
  | [], st => (true, st)
  | e :: rest, st =>
    if endsWithSlash e.name then extractLoop target totalFiles rest st
    else
      let name := replaceBackslash e.name
      if ¬ is_safe_zip_member target name then
        (false, { st with
          msgs := st.msgs ++
            ["ERROR: Unsafe zip entry detected (path traversal): " ++ String.mk name] })
      else
        let w := writeFile st.w (destSegsOf target name) e.data
        let extracted := st.extracted + 1
        let st1 : ExtractSt :=
          if (str "userdata/").isPrefixOf name && ! st.udBanner then
            { st with
              w := w, extracted := extracted, udBanner := true,
              msgs := st.msgs ++ ["Restoring userdata files..."] }
          else if (str "addons/").isPrefixOf name && ! st.adBanner then
            { st with
              w := w, extracted := extracted, adBanner := true,
              msgs := st.msgs ++ ["Restoring addons files..."] }
          else { st with w := w, extracted := extracted }
        let st2 : ExtractSt :=
          if extracted % 1000 = 0 || extracted = totalFiles then
            { st1 with
              msgs := st1.msgs ++
                ["Extracting... " ++ toString extracted ++ "/" ++ toString totalFiles ++
                  " files restored"] }
          else st1
        extractLoop target totalFiles rest st2

/-- `KodiBackupEngine.extract_backup_with_progress`.  (The per-member
`except` that merely counts post-validation write failures is not exercised:
writes in the pure filesystem model always succeed.) -/
def extract_backup_with_progress (bf : BackupFile) (target : List Str) (w : World) :
    Bool × World × List String :=
  match bf.content with
  | .ok entries =>
    let totalFiles := (entries.filter (fun e => ¬ endsWithSlash e.name)).length
    let st0 : ExtractSt :=
      { w := w, extracted := 0, skipped := 0, udBanner := false, adBanner := false,
        msgs := ["Extracting " ++ toString totalFiles ++ " items...",
          "Extracting backup archive..."] }
    let r := extractLoop target totalFiles entries st0
    if r.1 then
      (true, r.2.w, r.2.msgs ++
        ["Extraction completed with " ++ toString r.2.skipped ++ " skipped files"])
    else (false, r.2.w, r.2.msgs)
  | .missing => (false, w, ["ERROR: Failed to extract backup archive: file not found"])
  | .badZip => (false, w, ["ERROR: Failed to extract backup archive: bad zip file"])
  | .openErr e => (false, w, ["ERROR: Failed to extract backup archive: " ++ e])

/-- `KodiBackupEngine.clear_kodi_directories`: remove the `userdata` and
`addons` subtrees of the target if present.  `rmFail p` is whether
`shutil.rmtree(p)` raises. -/
def clear_kodi_directories (rmFail : List Str → Bool) (target : List Str)
    (w : World) : Bool × World :=
  let ud := target ++ [str "userdata"]
  if existsPath w ud && rmFail ud then (false, w)
  else
    let w1 := if existsPath w ud then removeSubtree w ud else w
    let ad := target ++ [str "addons"]
    if existsPath w1 ad && rmFail ad then (false, w1)
    else (true, if existsPath w1 ad then removeSubtree w1 ad else w1)

/-- One entry of the fixed cleanup catalog of `cleanup_cache_files`. -/
structure CleanupTarget where
  key : String
  name : String
  path : List Str
  isDirectory : Bool
deriving DecidableEq, Repr

/-- One row of the fixed cleanup catalog before anchoring at the Kodi
directory: key, display name, path relative to the Kodi directory, and
whether the target is a directory. -/
structure CleanupRow where
  key : String
  name : String
  rel : List Str
  isDirectory : Bool
deriving DecidableEq, Repr

/-- The eight rows of `all_cleanup_targets`, in insertion order. -/
def cleanupRows : List CleanupRow :=
  [ { key := "thumbnails", name := "Thumbnails",
      rel := [str "userdata", str "Thumbnails"], isDirectory := true },
    { key := "tmdb_blur", name := "TMDbHelper blur cache",
      rel := [str "userdata", str "addon_data",
        str "plugin.video.themoviedb.helper", str "blur_v2"], isDirectory := true },
    { key := "tmdb_crop", name := "TMDbHelper crop cache",
      rel := [str "userdata", str "addon_data",
        str "plugin.video.themoviedb.helper", str "crop_v2"], isDirectory := true },
    { key := "addon_packages", name := "Addon packages",
      rel := [str "addons", str "packages"], isDirectory := true },
    { key := "tmdb_database", name := "TMDbHelper database",
      rel := [str "userdata", str "addon_data",
        str "plugin.video.themoviedb.helper", str "database_07"], isDirectory := true },
    { key := "umbrella_cache", name := "Umbrella cache",
      rel := [str "userdata", str "addon_data",
        str "plugin.video.umbrella", str "cache.db"], isDirectory := false },
    { key := "umbrella_search", name := "Umbrella search",
      rel := [str "userdata", str "addon_data",
        str "plugin.video.umbrella", str "search.db"], isDirectory := false },
    { key := "cocoscrapers_cache", name := "Cocoscrapers cache",
      rel := [str "userdata", str "addon_data",
        str "script.module.cocoscrapers", str "cache.db"], isDirectory := false } ]

/-- The `all_cleanup_targets` dict of `cleanup_cache_files`, in insertion
order, with every path anchored at the Kodi directory. -/
def cleanupCatalog (kodiDir : List Str) : List CleanupTarget :=
  cleanupRows.map
    (fun r => { key := r.key, name := r.name, path := kodiDir ++ r.rel,
                isDirectory := r.isDirectory })

/-- The settings dict substituted when `cleanup_settings is None`. -/
def defaultCleanupSettings : List (String × Bool) :=
  [("thumbnails", true), ("tmdb_blur", true), ("tmdb_crop", true),
   ("addon_packages", true), ("tmdb_database", false), ("umbrella_cache", false),
   ("umbrella_search", false), ("cocoscrapers_cache", false)]

/-- Python `settings.get(key, False)`. -/
def settingsGet (settings : List (String × Bool)) (k : String) : Bool :=
  (settings.lookup k).getD false

/-- Whether `cleanup_cache_files` treats target key `k` as enabled under the
caller-supplied settings (`none` meaning the Python `None` default). -/
def cleanupEnabled (settings : Option (List (String × Bool))) (k : String) : Bool :=
  settingsGet (settings.getD defaultCleanupSettings) k

/-- The recursive file-size sum `cleanup_cache_files` computes before
deleting a directory target, and the single `stat` for a file target. -/
def targetFreedSize (w : World) (t : CleanupTarget) : Nat :=
  if t.isDirectory then
    (filesUnder w t.path).foldl (fun n f => n + f.2.length) 0
  else ((w.files.lookup t.path).getD []).length

/-- Whether one cleanup target ends up deleted in a run over the (pictured
initial) filesystem `w`: its key is enabled, its path exists, and its
deletion does not raise. -/
def cleanupOutcome (w : World) (s : List (String × Bool))
    (delFail : List Str → Bool) (t : CleanupTarget) : Bool :=
  settingsGet s t.key && existsPath w t.path && ! delFail t.path

/-- The per-target body of the cleanup loop.  `delFail p` is whether deleting
`p` raises; the exception is caught locally, the target is recorded `False`,
and the loop continues. -/
def cleanupStep (s : List (String × Bool)) (delFail : List Str → Bool)
    (acc : List (String × Bool) × Nat × World) (t : CleanupTarget) :
    List (String × Bool) × Nat × World :=
  let res := acc.1
  let total := acc.2.1
  let w := acc.2.2
  if ¬ settingsGet s t.key then (res ++ [(t.name, false)], total, w)
  else if existsPath w t.path then
    if delFail t.path then (res ++ [(t.name, false)], total, w)
    else
      let freed := targetFreedSize w t
      let w' := if t.isDirectory then removeSubtree w t.path else removeFileAt w t.path
      (res ++ [(t.name, true)], total + freed, w')
  else (res ++ [(t.name, false)], total, w)

/-- `KodiBackupEngine.cleanup_cache_files`: returns the results dict (in
catalog insertion order), the total bytes freed, and the filesystem after
the deletions. -/
def cleanup_cache_files (w : World) (kodiDir : List Str)
    (settings : Option (List (String × Bool))) (delFail : List Str → Bool) :
    List (String × Bool) × Nat × World :=
  let s := settings.getD defaultCleanupSettings
  (cleanupCatalog kodiDir).foldl (cleanupStep s delFail) ([], 0, w)

/-- Result record of `perform_restore`. -/
structure RestoreRec where
  success : Bool
  userdata_files : Nat
  addons_files : Nat
  total_size : Nat
  error_message : String
  error_logged : Bool
deriving DecidableEq, Repr

/-- The all-false/empty initial `results` dict of `perform_restore`. -/
def RestoreRec.init : RestoreRec :=
  { success := false, userdata_files := 0, addons_files := 0, total_size := 0,
    error_message := "", error_logged := false }

/-- `KodiBackupEngine._is_drive_root`: on POSIX every drive-root test of the
source collapses to "the resolved path is `/`", i.e. it has no segments. -/
def is_drive_root (target : List Str) : Bool :=
  normpathSegs target = []

/-- Render an absolute path for an error message. -/
def renderPath (p : List Str) : String :=
  "/" ++ String.intercalate "/" (p.map String.mk)

/-- The names `perform_restore` allows in a non-Kodi restore target,
`{".ds_store", "thumbs.db", "desktop.ini"}`. -/
def allowedNoiseNames : List Str :=
  [str ".ds_store", str "thumbs.db", str "desktop.ini"]

/-- The entries `Path(p).iterdir()` yields: the immediate children of `p`,
by name. -/
def childNames (w : World) (p : List Str) : List Str :=
  (w.dirs.filterMap
    (fun d => if d.length = p.length + 1 ∧ p.isPrefixOf d then d.getLast? else none))
  ++ (w.files.filterMap
    (fun f => if f.1.length = p.length + 1 ∧ p.isPrefixOf f.1 then f.1.getLast? else none))

/-- The refusal message for a non-empty non-Kodi restore target. -/
def restoreRefusalMsg : String :=
  "Restore target is not a Kodi folder and is not empty. Choose an empty folder (new device) or a Kodi folder containing userdata/ and addons/."

/-- Steps 5-6 of `perform_restore`: extraction and the success record. -/
def restoreExtract (bf : BackupFile) (target : List Str) (base : RestoreRec)
    (w : World) : RestoreRec × World :=
  let r := extract_backup_with_progress bf target w
  if ¬ r.1 then
    ({ base with
       error_message := "Failed to extract backup archive", error_logged := true },
     r.2.1)
  else ({ base with success := true }, r.2.1)

/-- Steps 3-6 of `perform_restore`: the pre-extraction scan of every archive
member against the resolved target, then the optional clearing of an existing
installation, then extraction. -/
def restoreFromPreScan (bf : BackupFile) (target : List Str)
    (rmFail : List Str → Bool) (hasU hasA : Bool) (base : RestoreRec) (w : World) :
    RestoreRec × World :=
  match bf.content with
  | .ok entries =>
    match entries.find? (fun e => ¬ is_safe_zip_member target e.name) with
    | some e =>
      ({ base with
         error_message :=
           "Unsafe zip entry detected (path traversal): " ++ String.mk e.name,
         error_logged := true }, w)
    | none =>
      if hasU && hasA then
        let c := clear_kodi_directories rmFail target w
        if ¬ c.1 then
          ({ base with
             error_message := "Failed to clear existing directories",
             error_logged := true }, c.2)
        else restoreExtract bf target base c.2
      else restoreExtract bf target base w
  | _ =>
    ({ base with
       error_message := "Error validating backup file entries: cannot reopen archive",
       error_logged := true }, w)

/-- `KodiBackupEngine.perform_restore`: validation, target checks, member
pre-scan, clearing, extraction. -/
def perform_restore (bf : BackupFile) (target : List Str)
    (rmFail : List Str → Bool) (w : World) : RestoreRec × World :=
  let v := validate_backup_file bf
  if ¬ v.valid then
    ({ RestoreRec.init with
       error_message := v.error_message, error_logged := v.error_logged }, w)
  else
    let base := { RestoreRec.init with
      userdata_files := v.userdata_files,
      addons_files := v.addons_files,
      total_size := v.total_size }
    if is_drive_root target then
      ({ base with
         error_message := "Refusing restore to drive root: " ++ renderPath target,
         error_logged := true }, w)
    else
      let w1 := if ¬ existsPath w target then mkdirParents w target else w
      let hasU := isDirPath w1 (target ++ [str "userdata"])
      let hasA := isDirPath w1 (target ++ [str "addons"])
      if ¬ (hasU && hasA) then
        if (childNames w1 target).any
            (fun n => decide (lowerStr n ∉ allowedNoiseNames)) then
          ({ base with error_message := restoreRefusalMsg, error_logged := true }, w1)
        else restoreFromPreScan bf target rmFail hasU hasA base w1
      else restoreFromPreScan bf target rmFail hasU hasA base w1

/-- `KodiBackupEngine.validate_kodi_directory`: both `userdata` and `addons`
must exist beneath the candidate source directory. -/
def validate_kodi_directory (w : World) (kodiPath : List Str) : Bool :=
  existsPath w (kodiPath ++ [str "userdata"]) &&
  existsPath w (kodiPath ++ [str "addons"])

/-- Python `str.strip()`. -/
def stripStr (s : Str) : Str :=
  ((s.dropWhile Char.isWhitespace).reverse.dropWhile Char.isWhitespace).reverse

/-- The character class of `re.sub(r'[<>:"/\\|?*\x00-\x1f\x7f]', "_", ·)`. -/
def isIllegalFilenameChar (c : Char) : Bool :=
  ['<', '>', ':', '"', '/', '\\', '|', '?', '*'].contains c ||
  c.toNat ≤ 0x1f || c.toNat = 0x7f

/-- Collapse runs of underscores, `re.sub(r"_+", "_", ·)`. -/
def collapseUnderscores : Str → Str
  | [] => []
  | [c] => [c]
  | c :: d :: rest =>
    if c = '_' ∧ d = '_' then collapseUnderscores (d :: rest)
    else c :: collapseUnderscores (d :: rest)

/-- `KodiBackupEngine.sanitize_label`. -/
def sanitize_label (label : Str) : Str :=
  if label = [] then str "backup"
  else
    let cleaned := stripStr label
    if cleaned = [] then str "backup"
    else
      let cleaned := cleaned.map (fun c => if isIllegalFilenameChar c then '_' else c)
      let cleaned := collapseUnderscores cleaned
      let cleaned := cleaned.take 50
      if cleaned = [] then str "backup" else cleaned

/-- `KodiBackupEngine.create_backup_filename`; `date` stands for
`datetime.now().strftime("%Y-%m-%d")`. -/
def create_backup_filename (date : String) (label : Str) : String :=
  if label = [] then "kodi.bkup_" ++ date ++ ".zip"
  else "kodi.bkup_" ++ date ++ "_" ++ String.mk (sanitize_label label) ++ ".zip"

/-- Result record of `perform_full_backup`. -/
structure BackupRec where
  success : Bool
  filename : String
  size_before_cleanup : Nat
  size_after_cleanup : Nat
  space_freed : Nat
  final_backup_size : Nat
  cleanup_results : List (String × Bool)
  error_message : String
deriving DecidableEq, Repr

/-- The all-false/empty initial `results` dict of `perform_full_backup`. -/
def BackupRec.init : BackupRec :=
  { success := false, filename := "", size_before_cleanup := 0,
    size_after_cleanup := 0, space_freed := 0, final_backup_size := 0,
    cleanup_results := [], error_message := "" }

/-- `KodiBackupEngine.perform_full_backup`: validation, cleanup, filename,
archive creation, and the derived size statistics.  `statSize` is what
`backup_file.stat().st_size` reports when the produced archive exists. -/
def perform_full_backup (w : World) (kodiPath : List Str) (date : String)
    (label : Str) (settings : Option (List (String × Bool)))
    (delFail : List Str → Bool) (readErr : List Str → Option String)
    (mkdirOk zipOpenOk : Bool) (statSize : Option Nat) : BackupRec × World :=
  if ¬ validate_kodi_directory w kodiPath then
    ({ BackupRec.init with error_message := "Invalid Kodi directory" }, w)
  else
    let c := cleanup_cache_files w kodiPath settings delFail
    let freed := c.2.1
    let w1 := c.2.2
    let filename := create_backup_filename date label
    let base := { BackupRec.init with
      cleanup_results := c.1, space_freed := freed, filename := filename }
    match create_backup_archive w1 kodiPath filename readErr mkdirOk zipOpenOk with
    | .error e => ({ base with error_message := "Unexpected error: " ++ e }, w1)
    | .ok br =>
      if br.success then
        ({ base with
           final_backup_size := statSize.getD 0,
           size_before_cleanup := br.totalSize + freed,
           size_after_cleanup := br.totalSize,
           success := true }, w1)
      else
        ({ base with error_message := "Failed to create backup archive" }, w1)

/-- A plain path segment: what a single file or directory name can be on the
platforms the engine targets once backslash-free.  Real directory listings
never produce empty names, `.`, `..`, or names containing `/`; a backslash is
possible only on POSIX and is exactly the case the archiver rewrites. -/
def plainSeg (s : Str) : Prop :=
  s ≠ [] ∧ '/' ∉ s ∧ '\\' ∉ s ∧ s ≠ ['.'] ∧ s ≠ ['.', '.']

instance (s : Str) : Decidable (plainSeg s) := by
  unfold plainSeg; infer_instance

/- ------------------------------------------------------------------ -/
/- Theorems.                                                           -/
/- ------------------------------------------------------------------ -/

theorem commonSegs_eq_left_iff (a b : List Str) : commonSegs a b = a ↔ a <+: b := by
  induction a generalizing b with
  | nil =>
    cases b <;> simp [commonSegs]
  | cons x xs ih =>
    cases b with
    | nil => simp [commonSegs]
    | cons y ys =>
      by_cases h : x = y
      · subst h
        simp [commonSegs, List.cons_prefix_cons, ih]
      · simp [commonSegs, h, List.cons_prefix_cons]

theorem normStep_plain (acc : List Str) (seg : Str)
    (h0 : seg ≠ []) (h1 : seg ≠ ['.']) (h2 : seg ≠ ['.', '.']) :
    normStep acc seg = acc ++ [seg] := by
  simp [normStep, h0, h1, h2]

theorem foldl_normStep_plain (segs : List Str) (acc : List Str)
    (h : ∀ s ∈ segs, s ≠ [] ∧ s ≠ ['.'] ∧ s ≠ ['.', '.']) :
    segs.foldl normStep acc = acc ++ segs := by
  induction segs generalizing acc with
  | nil => simp
  | cons s rest ih =>
    have hs := h s (by simp)
    rw [List.foldl_cons, normStep_plain acc s hs.1 hs.2.1 hs.2.2,
      ih (acc ++ [s]) (fun t ht => h t (by simp [ht]))]
    simp

theorem normpathSegs_append_plain (a segs : List Str)
    (h : ∀ s ∈ segs, s ≠ [] ∧ s ≠ ['.'] ∧ s ≠ ['.', '.']) :
    normpathSegs (a ++ segs) = normpathSegs a ++ segs := by
  unfold normpathSegs
  rw [List.foldl_append, foldl_normStep_plain segs _ h]

theorem splitOnSlash_noSlash (s : Str) (hs : '/' ∉ s) : splitOnSlash s = [s] := by
  induction s with
  | nil => simp [splitOnSlash]
  | cons c rest ih =>
    have hc : c ≠ '/' := fun h => hs (by simp [h])
    have hr : '/' ∉ rest := fun h => hs (by simp [h])
    simp [splitOnSlash, hc, ih hr]

theorem splitOnSlash_sep_append (s t : Str) (hs : '/' ∉ s) :
    splitOnSlash (s ++ '/' :: t) = s :: splitOnSlash t := by
  induction s with
  | nil => simp [splitOnSlash]
  | cons c rest ih =>
    have hc : c ≠ '/' := fun h => hs (by simp [h])
    have hr : '/' ∉ rest := fun h => hs (by simp [h])
    simp [splitOnSlash, hc, ih hr]

theorem splitOnSlash_joinSlash (segs : List Str) (hne : segs ≠ [])
    (hs : ∀ s ∈ segs, '/' ∉ s) :
    splitOnSlash (joinSlash segs) = segs := by
  induction segs with
  | nil => exact absurd rfl hne
  | cons s rest ih =>
    cases rest with
    | nil => exact splitOnSlash_noSlash s (hs s (by simp))
    | cons s' rest' =>
      have hj : joinSlash (s :: s' :: rest') = s ++ '/' :: joinSlash (s' :: rest') := rfl
      rw [hj, splitOnSlash_sep_append s _ (hs s (by simp))]
      rw [ih (List.cons_ne_nil _ _) (fun t ht => hs t (by simp [ht]))]

theorem replaceBackslash_eq_self (s : Str) (h : '\\' ∉ s) :
    replaceBackslash s = s := by
  induction s with
  | nil => rfl
  | cons c rest ih =>
    have hc : c ≠ '\\' := fun hh => h (by simp [hh])
    have hr : '\\' ∉ rest := fun hh => h (by simp [hh])
    simp [replaceBackslash] at ih ⊢
    exact ⟨by simp [hc], ih hr⟩

theorem joinSlash_eq_head_append (s : Str) (rest : List Str) :
    ∃ t, joinSlash (s :: rest) = s ++ t := by
  cases rest with
  | nil => exact ⟨[], by simp [joinSlash]⟩
  | cons a b => exact ⟨'/' :: joinSlash (a :: b), rfl⟩

theorem backslash_not_in_joinSlash (segs : List Str)
    (h : ∀ s ∈ segs, '\\' ∉ s) : '\\' ∉ joinSlash segs := by
  induction segs with
  | nil => simp [joinSlash]
  | cons s rest ih =>
    cases rest with
    | nil => simpa [joinSlash] using h s (by simp)
    | cons a b =>
      have hj : joinSlash (s :: a :: b) = s ++ '/' :: joinSlash (a :: b) := rfl
      rw [hj]
      intro hm
      rcases List.mem_append.mp hm with h1 | h2
      · exact h s (by simp) h1
      · rcases List.mem_cons.mp h2 with h3 | h4
        · exact absurd h3 (by decide)
        · exact ih (fun t ht => h t (by simp [ht])) h4

theorem foldl_normStep_no_special (segs : List Str) (acc : List Str)
    (hacc : ∀ s ∈ acc, s ≠ [] ∧ s ≠ ['.'] ∧ s ≠ ['.', '.']) :
    ∀ s ∈ segs.foldl normStep acc, s ≠ [] ∧ s ≠ ['.'] ∧ s ≠ ['.', '.'] := by
  induction segs generalizing acc with
  | nil => simpa using hacc
  | cons seg rest ih =>
    rw [List.foldl_cons]
    apply ih
    unfold normStep
    by_cases h0 : seg = []
    · simpa [h0] using hacc
    · by_cases h1 : seg = ['.']
      · simpa [h0, h1] using hacc
      · by_cases h2 : seg = ['.', '.']
        · simp only [h0, h1, h2, if_false, if_true]
          exact fun s hs => hacc s (List.dropLast_subset _ hs)
        · simp only [h0, h1, h2, if_false]
          intro s hs
          rcases List.mem_append.mp hs with h3 | h4
          · exact hacc s h3
          · rcases List.mem_singleton.mp h4 with rfl
            exact ⟨h0, h1, h2⟩

theorem normpathSegs_no_special (segs : List Str) :
    ∀ s ∈ normpathSegs segs, s ≠ [] ∧ s ≠ ['.'] ∧ s ≠ ['.', '.'] :=
  foldl_normStep_no_special segs [] (by simp)

theorem normpathSegs_idem (segs : List Str) :
    normpathSegs (normpathSegs segs) = normpathSegs segs := by
  have h := foldl_normStep_plain (normpathSegs segs) [] (normpathSegs_no_special segs)
  simpa [normpathSegs] using h

theorem is_safe_zip_member_plain (target : List Str) (segs : List Str)
    (hne : segs ≠ []) (hp : ∀ s ∈ segs, plainSeg s)
    (hd : startsWithDrive (joinSlash segs) = false) :
    is_safe_zip_member target (joinSlash segs) = true := by
  have hnb : '\\' ∉ joinSlash segs :=
    backslash_not_in_joinSlash segs (fun s hs => (hp s hs).2.2.1)
  have hrepl : replaceBackslash (joinSlash segs) = joinSlash segs :=
    replaceBackslash_eq_self _ hnb
  obtain ⟨s0, rest, rfl⟩ := List.exists_cons_of_ne_nil hne
  have hp0 := hp s0 (by simp)
  obtain ⟨t, hjoin⟩ := joinSlash_eq_head_append s0 rest
  obtain ⟨c, s0', rfl⟩ := List.exists_cons_of_ne_nil hp0.1
  have hc1 : c ≠ '/' := fun h => hp0.2.1 (by simp [h])
  have hc2 : c ≠ '\\' := fun h => hp0.2.2.1 (by simp [h])
  have hmember_ne : joinSlash ((c :: s0') :: rest) ≠ [] := by
    rw [hjoin]; simp
  have hsep : startsWithSep (joinSlash ((c :: s0') :: rest)) = false := by
    rw [hjoin]
    show startsWithSep (c :: (s0' ++ t)) = false
    simp [startsWithSep, hc1, hc2]
  have hsplit : splitOnSlash (joinSlash ((c :: s0') :: rest)) = (c :: s0') :: rest :=
    splitOnSlash_joinSlash _ hne (fun s hs => (hp s hs).2.1)
  have hplainish : ∀ s ∈ (c :: s0') :: rest, s ≠ [] ∧ s ≠ ['.'] ∧ s ≠ ['.', '.'] :=
    fun s hs => ⟨(hp s hs).1, (hp s hs).2.2.2.1, (hp s hs).2.2.2.2⟩
  rw [is_safe_zip_member]
  rw [if_neg hmember_ne]
  simp only [hrepl, hsep, hd, Bool.false_eq_true, if_false]
  rw [hsplit, normpathSegs_append_plain _ _ hplainish, normpathSegs_idem]
  rw [decide_eq_true_eq]
  exact (commonSegs_eq_left_iff _ _).mpr (List.prefix_append _ _)

theorem is_safe_zip_member_empty (target : List Str) :
    is_safe_zip_member target [] = false := by
  simp [is_safe_zip_member]

theorem is_safe_zip_member_sep (target : List Str) (member : Str)
    (h : startsWithSep (replaceBackslash member) = true) :
    is_safe_zip_member target member = false := by
  by_cases h0 : member = []
  · simp [h0, is_safe_zip_member]
  · rw [is_safe_zip_member, if_neg h0]
    simp [h]

theorem is_safe_zip_member_drive (target : List Str) (member : Str)
    (h : startsWithDrive (replaceBackslash member) = true) :
    is_safe_zip_member target member = false := by
  by_cases h0 : member = []
  · simp [h0, is_safe_zip_member]
  · rw [is_safe_zip_member, if_neg h0]
    by_cases h1 : startsWithSep (replaceBackslash member) = true
    · simp [h1]
    · simp only [Bool.not_eq_true] at h1
      simp [h1, h]

theorem is_safe_zip_member_iff_contained (target : List Str) (member : Str)
    (h0 : member ≠ []) (h1 : startsWithSep (replaceBackslash member) = false)
    (h2 : startsWithDrive (replaceBackslash member) = false) :
    is_safe_zip_member target member = true ↔
      normpathSegs target <+:
        normpathSegs (normpathSegs target ++ splitOnSlash (replaceBackslash member)) := by
  rw [is_safe_zip_member, if_neg h0]
  simp only [h1, h2, Bool.false_eq_true, if_false]
  rw [decide_eq_true_eq]
  exact commonSegs_eq_left_iff _ _

/-- C2: for every target directory, `_is_safe_zip_member` returns false when
the member name is empty, begins with a path separator, or begins with a
drive-letter prefix, and otherwise returns true exactly when the resolved,
case-normalized join of target and member stays inside the resolved target
(their common path prefix is the target); in particular it is false for
`../../etc/passwd` (at a representative non-root target), false for
`/etc/passwd` and `C:\Windows\x` at every target, and true for
`userdata/a/b.txt` at every target. -/
theorem c2_safe_member_characterization (target : List Str) (member : Str) :
    ((member = [] → is_safe_zip_member target member = false)
  ∧ (startsWithSep (replaceBackslash member) = true →
      is_safe_zip_member target member = false)
  ∧ (startsWithDrive (replaceBackslash member) = true →
      is_safe_zip_member target member = false)
  ∧ (member ≠ [] → startsWithSep (replaceBackslash member) = false →
      startsWithDrive (replaceBackslash member) = false →
      (is_safe_zip_member target member = true ↔
        normpathSegs target <+:
          normpathSegs (normpathSegs target ++ splitOnSlash (replaceBackslash member)))))
  ∧ is_safe_zip_member [str "home", str "user", str "kodi"] (str "../../etc/passwd") = false
  ∧ is_safe_zip_member target (str "/etc/passwd") = false
  ∧ is_safe_zip_member target (str "C:\\Windows\\x") = false
  ∧ is_safe_zip_member target (str "userdata/a/b.txt") = true := by
  refine ⟨⟨?_, ?_, ?_, ?_⟩, ?_, ?_, ?_, ?_⟩
  · intro h; rw [h]; exact is_safe_zip_member_empty target
  · exact is_safe_zip_member_sep target member
  · exact is_safe_zip_member_drive target member
  · exact is_safe_zip_member_iff_contained target member
  · decide
  · exact is_safe_zip_member_sep target _ (by decide)
  · exact is_safe_zip_member_drive target _ (by decide)
  · have hj : str "userdata/a/b.txt" = joinSlash [str "userdata", str "a", str "b.txt"] := by
      decide
    rw [hj]
    exact is_safe_zip_member_plain target _ (by decide)
      (by intro s hs; fin_cases hs <;> decide) (by decide)

/-- Witness for `c2_safe_member_characterization` at a concrete target and
member, with every hypothesis discharged concretely. -/
theorem c2_safe_member_characterization_witness :
    is_safe_zip_member [str "home"] (str "userdata/x") = true ↔
      normpathSegs [str "home"] <+:
        normpathSegs (normpathSegs [str "home"] ++
          splitOnSlash (replaceBackslash (str "userdata/x"))) :=
  (c2_safe_member_characterization [str "home"] (str "userdata/x")).1.2.2.2
    (by decide) (by decide) (by decide)

theorem mem_dirs_removeSubtree (w : World) (q p : List Str) :
    p ∈ (removeSubtree w q).dirs ↔ p ∈ w.dirs ∧ ¬ q <+: p := by
  simp [removeSubtree, List.mem_filter]

theorem mem_files_removeSubtree (w : World) (q p : List Str) (d : Data) :
    (p, d) ∈ (removeSubtree w q).files ↔ (p, d) ∈ w.files ∧ ¬ q <+: p := by
  simp [removeSubtree, List.mem_filter]

/-- C10: `clear_kodi_directories` deletes at most the `userdata` and `addons`
entries of the target directory: every directory and every file whose path is
not under `target/userdata` or `target/addons` exists after the clearing step
exactly when it existed before, whatever the deletion-failure behavior. -/
theorem c10_clear_frame (rmFail : List Str → Bool) (target : List Str) (w : World)
    (p : List Str)
    (hu : ¬ (target ++ [str "userdata"]) <+: p)
    (ha : ¬ (target ++ [str "addons"]) <+: p) :
    (p ∈ (clear_kodi_directories rmFail target w).2.dirs ↔ p ∈ w.dirs)
  ∧ (∀ d : Data,
      (p, d) ∈ (clear_kodi_directories rmFail target w).2.files ↔ (p, d) ∈ w.files) := by
  unfold clear_kodi_directories
  by_cases h1 : (existsPath w (target ++ [str "userdata"]) &&
      rmFail (target ++ [str "userdata"])) = true
  · simp [h1]
  · simp only [h1, Bool.false_eq_true, if_false]
    by_cases h2 : existsPath w (target ++ [str "userdata"]) = true
    all_goals
      simp only [h2, if_true, Bool.false_eq_true, if_false]
    all_goals
      constructor
    · by_cases h4 : existsPath (removeSubtree w (target ++ [str "userdata"]))
          (target ++ [str "addons"]) = true <;>
      by_cases h5 : rmFail (target ++ [str "addons"]) = true <;>
      simp [h4, h5, mem_dirs_removeSubtree, hu, ha]
    · intro d
      by_cases h4 : existsPath (removeSubtree w (target ++ [str "userdata"]))
          (target ++ [str "addons"]) = true <;>
      by_cases h5 : rmFail (target ++ [str "addons"]) = true <;>
      simp [h4, h5, mem_files_removeSubtree, hu, ha]
    · by_cases h4 : existsPath w (target ++ [str "addons"]) = true <;>
      by_cases h5 : rmFail (target ++ [str "addons"]) = true <;>
      simp [h4, h5, mem_dirs_removeSubtree, hu, ha]
    · intro d
      by_cases h4 : existsPath w (target ++ [str "addons"]) = true <;>
      by_cases h5 : rmFail (target ++ [str "addons"]) = true <;>
      simp [h4, h5, mem_files_removeSubtree, hu, ha]

/-- Witness for `c10_clear_frame`: a sibling file `t/kodi.exe` survives a
clearing that removes the `userdata` and `addons` subtrees. -/
theorem c10_clear_frame_witness :
    ([str "t", str "kodi.exe"], ([7] : Data)) ∈
      (clear_kodi_directories (fun _ => false) [str "t"]
        { dirs := [[str "t"], [str "t", str "userdata"], [str "t", str "addons"]],
          files := [([str "t", str "kodi.exe"], [7]),
            ([str "t", str "userdata", str "guisettings.xml"], [1])] }).2.files :=
  ((c10_clear_frame (fun _ => false) [str "t"]
    { dirs := [[str "t"], [str "t", str "userdata"], [str "t", str "addons"]],
      files := [([str "t", str "kodi.exe"], [7]),
        ([str "t", str "userdata", str "guisettings.xml"], [1])] }
    [str "t", str "kodi.exe"] (by decide) (by decide)).2 [7]).mpr (by decide)

theorem validate_msgs_distinct (e : String) :
    ("File is not a valid ZIP archive" : String) ≠
      "Error validating backup file: " ++ e := by
  intro h
  have hd := congrArg String.data h
  rw [String.data_append] at hd
  have h1 := congrArg List.head? hd
  rw [List.head?_append] at h1
  have hE : ("Error validating backup file: " : String).data.head? = some 'E' := by
    decide
  rw [hE] at h1
  have h2 : ("File is not a valid ZIP archive" : String).data.head? = some 'E' := h1
  revert h2
  decide

/-- C5: `validate_backup_file` reports valid exactly when the file exists,
has a case-insensitive `.zip` extension, opens as a well-formed archive, and
its normalized member list has a member whose first segment is `userdata` and
one whose first segment is `addons`; the checks run in that order (each
failure message is fixed by the earliest failing check); on success it
returns the non-directory member counts under the two prefixes and the total
uncompressed size over all non-directory members; and a malformed container
is reported differently from a generic open error. -/
theorem c5_validate_backup_file_characterization (bf : BackupFile) :
    ((validate_backup_file bf).valid = true ↔
      (archPresent bf.content = true ∧
        lowerStr (pathSuffix bf.path) = str ".zip" ∧
        ∃ entries, bf.content = .ok entries ∧
          (entries.map (fun e => replaceBackslash e.name)).any
            (fun f => firstSegOf f = str "userdata") = true ∧
          (entries.map (fun e => replaceBackslash e.name)).any
            (fun f => firstSegOf f = str "addons") = true))
  ∧ (∀ entries, bf.content = .ok entries → (validate_backup_file bf).valid = true →
      (validate_backup_file bf).userdata_files =
        ((entries.map (fun e => replaceBackslash e.name)).filter
          (fun f => (str "userdata/").isPrefixOf f && ¬ endsWithSlash f)).length
    ∧ (validate_backup_file bf).addons_files =
        ((entries.map (fun e => replaceBackslash e.name)).filter
          (fun f => (str "addons/").isPrefixOf f && ¬ endsWithSlash f)).length
    ∧ (validate_backup_file bf).total_size =
        (entries.filter (fun e => ¬ endsWithSlash e.name)).foldl
          (fun n e => n + e.data.length) 0)
  ∧ (archPresent bf.content = false →
      (validate_backup_file bf).error_message =
        "Backup file not found: " ++ String.mk bf.path)
  ∧ (archPresent bf.content = true → lowerStr (pathSuffix bf.path) ≠ str ".zip" →
      (validate_backup_file bf).error_message = "Backup file must be a ZIP archive")
  ∧ (bf.content = .badZip → lowerStr (pathSuffix bf.path) = str ".zip" →
      (validate_backup_file bf).error_message = "File is not a valid ZIP archive")
  ∧ (∀ e, bf.content = .openErr e → lowerStr (pathSuffix bf.path) = str ".zip" →
      (validate_backup_file bf).error_message = "Error validating backup file: " ++ e)
  ∧ (∀ e, ("File is not a valid ZIP archive" : String) ≠
      "Error validating backup file: " ++ e) := by
  obtain ⟨path, content⟩ := bf
  refine ⟨?_, ?_, ?_, ?_, ?_, ?_, fun e => validate_msgs_distinct e⟩
  all_goals
    cases content with
    | missing =>
      simp [validate_backup_file, ValidationRec.init, archPresent]
    | badZip =>
      by_cases hs : lowerStr (pathSuffix path) = str ".zip" <;>
        simp [validate_backup_file, ValidationRec.init, archPresent, hs]
    | openErr e =>
      by_cases hs : lowerStr (pathSuffix path) = str ".zip" <;>
        simp [validate_backup_file, ValidationRec.init, archPresent, hs]
    | ok entries =>
      by_cases hs : lowerStr (pathSuffix path) = str ".zip" <;>
      cases hu : (entries.map (fun e => replaceBackslash e.name)).any
          (fun f => firstSegOf f = str "userdata") <;>
      cases ha : (entries.map (fun e => replaceBackslash e.name)).any
          (fun f => firstSegOf f = str "addons") <;>
        simp [validate_backup_file, ValidationRec.init, archPresent, hs, hu, ha] <;>
        simp_all

/-- Witness for `c5_validate_backup_file_characterization`: a well-formed
two-member archive named `b.zip` validates, with one file counted under each
prefix. -/
theorem c5_validate_backup_file_characterization_witness :
    (validate_backup_file
      { path := str "b.zip",
        content := .ok [⟨str "userdata/x", [7]⟩, ⟨str "addons/y", [8, 9]⟩] }).valid
      = true := by
  have h := (c5_validate_backup_file_characterization
    { path := str "b.zip",
      content := .ok [⟨str "userdata/x", [7]⟩, ⟨str "addons/y", [8, 9]⟩] }).1
  exact h.mpr (by
    refine ⟨by decide, by decide,
      [⟨str "userdata/x", [7]⟩, ⟨str "addons/y", [8, 9]⟩], rfl, by decide, by decide⟩)

theorem existsPath_eq_true_iff (w : World) (q : List Str) :
    existsPath w q = true ↔ (q ∈ w.dirs ∨ ∃ d, (q, d) ∈ w.files) := by
  simp only [existsPath, Bool.or_eq_true, decide_eq_true_eq, List.any_eq_true]
  apply or_congr Iff.rfl
  constructor
  · rintro ⟨f, hf, hq⟩
    refine ⟨f.2, ?_⟩
    have : (q, f.2) = f := by
      rw [← hq]
    rwa [this]
  · rintro ⟨d, hd⟩
    exact ⟨(q, d), hd, by simp⟩

theorem lookup_filter_of_keeps (l : List (List Str × Data))
    (p : List Str × Data → Bool) (k : List Str) (hk : ∀ d, p (k, d) = true) :
    (l.filter p).lookup k = l.lookup k := by
  induction l with
  | nil => rfl
  | cons f rest ih =>
    obtain ⟨k', d⟩ := f
    by_cases hkk : k' = k
    · subst hkk
      rw [List.filter_cons, hk d]
      simp [List.lookup]
    · rw [List.filter_cons]
      have hbeq : (k == k') = false := by
        simp [beq_iff_eq]
        exact fun h => hkk h.symm
      cases hp : p (k', d) with
      | false => simp only [Bool.false_eq_true, if_false, List.lookup, hbeq, ih]
      | true => simp only [if_true, List.lookup, hbeq, ih]

theorem existsPath_removeSubtree_outside (w : World) (p q : List Str)
    (h : ¬ p <+: q) :
    existsPath (removeSubtree w p) q = existsPath w q := by
  rw [Bool.eq_iff_iff, existsPath_eq_true_iff, existsPath_eq_true_iff]
  constructor
  · rintro (hd | ⟨d, hf⟩)
    · exact Or.inl ((mem_dirs_removeSubtree w p q).mp hd).1
    · exact Or.inr ⟨d, ((mem_files_removeSubtree w p q d).mp hf).1⟩
  · rintro (hd | ⟨d, hf⟩)
    · exact Or.inl ((mem_dirs_removeSubtree w p q).mpr ⟨hd, h⟩)
    · exact Or.inr ⟨d, (mem_files_removeSubtree w p q d).mpr ⟨hf, h⟩⟩

theorem filesUnder_removeSubtree_of_disjoint (w : World) (p q : List Str)
    (h1 : ¬ p <+: q) (h2 : ¬ q <+: p) :
    filesUnder (removeSubtree w p) q = filesUnder w q := by
  show ((w.files.filter _).filter _) = _
  rw [List.filter_filter]
  apply List.filter_congr
  intro f _
  by_cases hq : q <+: f.1
  · have hp : ¬ p <+: f.1 := by
      intro hp
      rcases List.prefix_or_prefix_of_prefix hp hq with hc | hc
      · exact h1 hc
      · exact h2 hc
    simp [hp, hq]
  · simp [hq]

theorem existsPath_removeFileAt_of_ne (w : World) (p q : List Str) (h : p ≠ q) :
    existsPath (removeFileAt w p) q = existsPath w q := by
  rw [Bool.eq_iff_iff, existsPath_eq_true_iff, existsPath_eq_true_iff]
  simp only [removeFileAt, List.mem_filter, decide_eq_true_eq]
  constructor
  · rintro (hd | ⟨d, hf, _⟩)
    · exact Or.inl hd
    · exact Or.inr ⟨d, hf⟩
  · rintro (hd | ⟨d, hf⟩)
    · exact Or.inl hd
    · exact Or.inr ⟨d, hf, fun hc => h hc.symm⟩

theorem filesUnder_removeFileAt_outside (w : World) (p q : List Str)
    (h2 : ¬ q <+: p) :
    filesUnder (removeFileAt w p) q = filesUnder w q := by
  show ((w.files.filter _).filter _) = _
  rw [List.filter_filter]
  apply List.filter_congr
  intro f _
  by_cases hq : q <+: f.1
  · have hp : f.1 ≠ p := by
      intro hp
      exact h2 (hp ▸ hq)
    simp [hp, hq]
  · simp [hq]

theorem targetFreedSize_removeSubtree (w : World) (p : List Str) (t : CleanupTarget)
    (h1 : ¬ p <+: t.path) (h2 : ¬ t.path <+: p) :
    targetFreedSize (removeSubtree w p) t = targetFreedSize w t := by
  unfold targetFreedSize
  by_cases hd : t.isDirectory
  · rw [if_pos hd, if_pos hd, filesUnder_removeSubtree_of_disjoint w p t.path h1 h2]
  · rw [if_neg hd, if_neg hd]
    show ((((removeSubtree w p).files).lookup t.path).getD []).length =
      ((w.files.lookup t.path).getD []).length
    show (((w.files.filter _).lookup t.path).getD []).length =
      ((w.files.lookup t.path).getD []).length
    rw [lookup_filter_of_keeps]
    intro d
    simpa using h1

theorem targetFreedSize_removeFileAt (w : World) (p : List Str) (t : CleanupTarget)
    (h1 : ¬ p <+: t.path) (h2 : ¬ t.path <+: p) :
    targetFreedSize (removeFileAt w p) t = targetFreedSize w t := by
  unfold targetFreedSize
  by_cases hd : t.isDirectory
  · rw [if_pos hd, if_pos hd, filesUnder_removeFileAt_outside w p t.path h2]
  · rw [if_neg hd, if_neg hd]
    show ((((removeFileAt w p).files).lookup t.path).getD []).length =
      ((w.files.lookup t.path).getD []).length
    show (((w.files.filter _).lookup t.path).getD []).length =
      ((w.files.lookup t.path).getD []).length
    rw [lookup_filter_of_keeps]
    intro d
    have hne : t.path ≠ p := fun hc => h1 (hc ▸ List.prefix_refl p)
    simpa using hne

theorem cleanup_foldl_characterization (s : List (String × Bool))
    (delFail : List Str → Bool) (ts : List CleanupTarget) (w0 : World) :
    ∀ (w : World) (res0 : List (String × Bool)) (total0 : Nat),
    (∀ t ∈ ts, existsPath w t.path = existsPath w0 t.path ∧
      targetFreedSize w t = targetFreedSize w0 t) →
    ts.Pairwise (fun a b => ¬ a.path <+: b.path ∧ ¬ b.path <+: a.path) →
    (ts.foldl (cleanupStep s delFail) (res0, total0, w)).1 =
      res0 ++ ts.map (fun t => (t.name, cleanupOutcome w0 s delFail t))
  ∧ (ts.foldl (cleanupStep s delFail) (res0, total0, w)).2.1 =
      total0 + (ts.map
        (fun t => if cleanupOutcome w0 s delFail t then targetFreedSize w0 t else 0)).sum := by
  induction ts with
  | nil => intro w res0 total0 _ _; simp
  | cons t rest ih =>
    intro w res0 total0 hagree hdisj
    obtain ⟨hex, hsize⟩ := hagree t (by simp)
    obtain ⟨hhead, htail⟩ := List.pairwise_cons.mp hdisj
    rw [List.foldl_cons]
    have hagree_rest_same : ∀ u ∈ rest,
        existsPath w u.path = existsPath w0 u.path ∧
        targetFreedSize w u = targetFreedSize w0 u :=
      fun u hu => hagree u (by simp [hu])
    by_cases hen : settingsGet s t.key = true
    · by_cases hpe : existsPath w t.path = true
      · by_cases hdf : delFail t.path = true
        · have hout : cleanupOutcome w0 s delFail t = false := by
            simp [cleanupOutcome, hdf]
          have hstep : cleanupStep s delFail (res0, total0, w) t =
              (res0 ++ [(t.name, false)], total0, w) := by
            simp [cleanupStep, hen, hpe, hdf]
          rw [hstep]
          obtain ⟨h1, h2⟩ := ih w (res0 ++ [(t.name, false)]) total0 hagree_rest_same htail
          refine ⟨?_, ?_⟩
          · rw [h1, List.map_cons, hout]
            simp
          · rw [h2, List.map_cons, hout]
            simp
        · have hout : cleanupOutcome w0 s delFail t = true := by
            simp only [Bool.not_eq_true] at hdf
            simp [cleanupOutcome, hen, ← hex, hpe, hdf]
          have hstep : cleanupStep s delFail (res0, total0, w) t =
              (res0 ++ [(t.name, true)], total0 + targetFreedSize w t,
                if t.isDirectory then removeSubtree w t.path
                else removeFileAt w t.path) := by
            simp [cleanupStep, hen, hpe, hdf, targetFreedSize]
          rw [hstep]
          have hagree_rest : ∀ u ∈ rest,
              existsPath (if t.isDirectory then removeSubtree w t.path
                else removeFileAt w t.path) u.path = existsPath w0 u.path ∧
              targetFreedSize (if t.isDirectory then removeSubtree w t.path
                else removeFileAt w t.path) u = targetFreedSize w0 u := by
            intro u hu
            obtain ⟨hd1, hd2⟩ := hhead u hu
            have hne : t.path ≠ u.path := fun hc => hd1 (hc ▸ List.prefix_refl _)
            by_cases hid : t.isDirectory
            · simp only [if_pos hid]
              constructor
              · rw [existsPath_removeSubtree_outside w t.path u.path hd1]
                exact (hagree_rest_same u hu).1
              · rw [targetFreedSize_removeSubtree w t.path u hd1 hd2]
                exact (hagree_rest_same u hu).2
            · simp only [if_neg hid]
              constructor
              · rw [existsPath_removeFileAt_of_ne w t.path u.path hne]
                exact (hagree_rest_same u hu).1
              · rw [targetFreedSize_removeFileAt w t.path u hd1 hd2]
                exact (hagree_rest_same u hu).2
          obtain ⟨h1, h2⟩ := ih _ (res0 ++ [(t.name, true)])
            (total0 + targetFreedSize w t) hagree_rest htail
          refine ⟨?_, ?_⟩
          · rw [h1, List.map_cons, hout]
            simp
          · rw [h2, List.map_cons, hout, hsize]
            simp [Nat.add_assoc]
      · have hout : cleanupOutcome w0 s delFail t = false := by
          simp only [Bool.not_eq_true] at hpe
          simp [cleanupOutcome, ← hex, hpe]
        have hstep : cleanupStep s delFail (res0, total0, w) t =
            (res0 ++ [(t.name, false)], total0, w) := by
          simp [cleanupStep, hen, hpe]
        rw [hstep]
        obtain ⟨h1, h2⟩ := ih w (res0 ++ [(t.name, false)]) total0 hagree_rest_same htail
        refine ⟨?_, ?_⟩
        · rw [h1, List.map_cons, hout]
          simp
        · rw [h2, List.map_cons, hout]
          simp
    · have hout : cleanupOutcome w0 s delFail t = false := by
        simp only [Bool.not_eq_true] at hen
        simp [cleanupOutcome, hen]
      have hstep : cleanupStep s delFail (res0, total0, w) t =
          (res0 ++ [(t.name, false)], total0, w) := by
        simp [cleanupStep, hen]
      rw [hstep]
      obtain ⟨h1, h2⟩ := ih w (res0 ++ [(t.name, false)]) total0 hagree_rest_same htail
      refine ⟨?_, ?_⟩
      · rw [h1, List.map_cons, hout]
        simp
      · rw [h2, List.map_cons, hout]
        simp

theorem cleanupCatalog_pairwise (kodi : List Str) :
    (cleanupCatalog kodi).Pairwise
      (fun a b => ¬ a.path <+: b.path ∧ ¬ b.path <+: a.path) := by
  unfold cleanupCatalog
  apply List.Pairwise.map
    (R := fun a b : CleanupRow => ¬ a.rel <+: b.rel ∧ ¬ b.rel <+: a.rel)
  · intro a b hab
    refine ⟨?_, ?_⟩
    · intro h
      exact hab.1 ((List.prefix_append_right_inj kodi).mp h)
    · intro h
      exact hab.2 ((List.prefix_append_right_inj kodi).mp h)
  · decide

theorem cleanup_cache_files_characterization (w : World) (kodi : List Str)
    (s : List (String × Bool)) (delFail : List Str → Bool) :
    (cleanup_cache_files w kodi (some s) delFail).1 =
      (cleanupCatalog kodi).map (fun t => (t.name, cleanupOutcome w s delFail t))
  ∧ (cleanup_cache_files w kodi (some s) delFail).2.1 =
      ((cleanupCatalog kodi).map
        (fun t => if cleanupOutcome w s delFail t then targetFreedSize w t else 0)).sum := by
  have h := cleanup_foldl_characterization s delFail (cleanupCatalog kodi) w w [] 0
    (fun t _ => ⟨rfl, rfl⟩) (cleanupCatalog_pairwise kodi)
  simpa [cleanup_cache_files] using h

theorem cleanup_cache_files_none_eq (w : World) (kodi : List Str)
    (delFail : List Str → Bool) :
    cleanup_cache_files w kodi none delFail =
      cleanup_cache_files w kodi (some defaultCleanupSettings) delFail := rfl

theorem cleanup_cache_files_getD (w : World) (kodi : List Str)
    (settings : Option (List (String × Bool))) (delFail : List Str → Bool) :
    cleanup_cache_files w kodi settings delFail =
      cleanup_cache_files w kodi (some (settings.getD defaultCleanupSettings)) delFail := by
  cases settings <;> rfl

/-- C8: in every run of `cleanup_cache_files`, the result mapping lists the
fixed catalog names in catalog order regardless of which targets were enabled
or succeeded; an enabled target whose path does not exist is recorded false;
a target whose deletion raises is recorded false while every other target
still gets its entry; and the total freed is the sum over the catalog in
which targets that were not actually deleted (not enabled, absent, or
failing) contribute 0 bytes. -/
theorem c8_cleanup_error_handling (w : World) (kodi : List Str)
    (settings : Option (List (String × Bool))) (delFail : List Str → Bool) :
    ((cleanup_cache_files w kodi settings delFail).1.map Prod.fst =
      (cleanupCatalog kodi).map (fun t => t.name))
  ∧ (∀ t ∈ cleanupCatalog kodi,
      cleanupEnabled settings t.key = true → existsPath w t.path = false →
        (t.name, false) ∈ (cleanup_cache_files w kodi settings delFail).1)
  ∧ (∀ t ∈ cleanupCatalog kodi, delFail t.path = true →
        (t.name, false) ∈ (cleanup_cache_files w kodi settings delFail).1)
  ∧ ((cleanup_cache_files w kodi settings delFail).2.1 =
      ((cleanupCatalog kodi).map
        (fun t => if cleanupOutcome w (settings.getD defaultCleanupSettings) delFail t
          then targetFreedSize w t else 0)).sum) := by
  rw [cleanup_cache_files_getD]
  obtain ⟨hres, htot⟩ := cleanup_cache_files_characterization w kodi
    (settings.getD defaultCleanupSettings) delFail
  refine ⟨?_, ?_, ?_, htot⟩
  · rw [hres, List.map_map]
    rfl
  · intro t ht _ hex
    rw [hres]
    have hout : cleanupOutcome w (settings.getD defaultCleanupSettings) delFail t = false := by
      simp [cleanupOutcome, hex]
    exact List.mem_map.mpr ⟨t, ht, by rw [hout]⟩
  · intro t ht hdf
    rw [hres]
    have hout : cleanupOutcome w (settings.getD defaultCleanupSettings) delFail t = false := by
      simp [cleanupOutcome, hdf]
    exact List.mem_map.mpr ⟨t, ht, by rw [hout]⟩

/-- Witness for `c8_cleanup_error_handling`: on an empty filesystem with
default settings, the enabled `Thumbnails` target does not exist and is
recorded as false. -/
theorem c8_cleanup_error_handling_witness :
    (("Thumbnails", false) ∈
      (cleanup_cache_files { dirs := [], files := [] } [str "k"] none
        (fun _ => false)).1) :=
  (c8_cleanup_error_handling { dirs := [], files := [] } [str "k"] none
    (fun _ => false)).2.1
    { key := "thumbnails", name := "Thumbnails",
      path := [str "k"] ++ [str "userdata", str "Thumbnails"], isDirectory := true }
    (by decide) (by decide) (by decide)

/-- C7 counterexample: `thumbnails` is one of the four default catalog
targets; with a caller-supplied mapping from which the key is absent (the
empty mapping) and the thumbnails directory present and non-empty, the run
records `Thumbnails := false`, frees 0 bytes, and leaves the filesystem
unchanged — so a default target whose key is absent from the supplied
mapping is NOT cleaned, contradicting the claim. -/
theorem c7_absent_default_key_counterexample :
    ((cleanup_cache_files
        { dirs := [[str "k"], [str "k", str "userdata"],
            [str "k", str "userdata", str "Thumbnails"]],
          files := [([str "k", str "userdata", str "Thumbnails", str "t.jpg"],
            [1, 2, 3])] }
        [str "k"] (some []) (fun _ => false)).1.lookup "Thumbnails" = some false)
  ∧ ((cleanup_cache_files
        { dirs := [[str "k"], [str "k", str "userdata"],
            [str "k", str "userdata", str "Thumbnails"]],
          files := [([str "k", str "userdata", str "Thumbnails", str "t.jpg"],
            [1, 2, 3])] }
        [str "k"] (some []) (fun _ => false)).2.1 = 0)
  ∧ ((cleanup_cache_files
        { dirs := [[str "k"], [str "k", str "userdata"],
            [str "k", str "userdata", str "Thumbnails"]],
          files := [([str "k", str "userdata", str "Thumbnails", str "t.jpg"],
            [1, 2, 3])] }
        [str "k"] (some []) (fun _ => false)).2.2 =
      { dirs := [[str "k"], [str "k", str "userdata"],
          [str "k", str "userdata", str "Thumbnails"]],
        files := [([str "k", str "userdata", str "Thumbnails", str "t.jpg"],
          [1, 2, 3])] })
  ∧ (existsPath
      { dirs := [[str "k"], [str "k", str "userdata"],
          [str "k", str "userdata", str "Thumbnails"]],
        files := [([str "k", str "userdata", str "Thumbnails", str "t.jpg"],
          [1, 2, 3])] }
      [str "k", str "userdata", str "Thumbnails"] = true) := by
  refine ⟨by decide, by decide, by decide, by decide⟩

/-- C7 (amended): with no supplied mapping exactly the four default targets
are enabled; with a supplied mapping, every target — default or optional —
is enabled exactly when its key is present and mapped to true
(`settings.get(key, False)`), so a default target whose key is absent is
disabled and is not cleaned. -/
theorem c7_cleanup_toggle_semantics :
    (∀ k : String, cleanupEnabled none k = true ↔
      k ∈ (["thumbnails", "tmdb_blur", "tmdb_crop", "addon_packages"] : List String))
  ∧ (∀ (m : List (String × Bool)) (k : String),
      cleanupEnabled (some m) k = (m.lookup k).getD false)
  ∧ (∀ (m : List (String × Bool)) (k : String), m.lookup k = none →
      cleanupEnabled (some m) k = false)
  ∧ (∀ (w : World) (kodi : List Str) (m : List (String × Bool))
      (delFail : List Str → Bool) (t : CleanupTarget), t ∈ cleanupCatalog kodi →
      (m.lookup t.key).getD false = false →
      (t.name, false) ∈ (cleanup_cache_files w kodi (some m) delFail).1) := by
  refine ⟨?_, fun m k => rfl, ?_, ?_⟩
  · intro k
    by_cases h1 : k = "thumbnails"
    · subst h1; decide
    · by_cases h2 : k = "tmdb_blur"
      · subst h2; decide
      · by_cases h3 : k = "tmdb_crop"
        · subst h3; decide
        · by_cases h4 : k = "addon_packages"
          · subst h4; decide
          · by_cases h5 : k = "tmdb_database"
            · subst h5; decide
            · by_cases h6 : k = "umbrella_cache"
              · subst h6; decide
              · by_cases h7 : k = "umbrella_search"
                · subst h7; decide
                · by_cases h8 : k = "cocoscrapers_cache"
                  · subst h8; decide
                  · have b1 : (k == "thumbnails") = false := beq_eq_false_iff_ne.mpr h1
                    have b2 : (k == "tmdb_blur") = false := beq_eq_false_iff_ne.mpr h2
                    have b3 : (k == "tmdb_crop") = false := beq_eq_false_iff_ne.mpr h3
                    have b4 : (k == "addon_packages") = false := beq_eq_false_iff_ne.mpr h4
                    have b5 : (k == "tmdb_database") = false := beq_eq_false_iff_ne.mpr h5
                    have b6 : (k == "umbrella_cache") = false := beq_eq_false_iff_ne.mpr h6
                    have b7 : (k == "umbrella_search") = false := beq_eq_false_iff_ne.mpr h7
                    have b8 : (k == "cocoscrapers_cache") = false := beq_eq_false_iff_ne.mpr h8
                    simp [cleanupEnabled, settingsGet, defaultCleanupSettings,
                      List.lookup, b1, b2, b3, b4, b5, b6, b7, b8, h1, h2, h3, h4]
  · intro m k hk
    simp [cleanupEnabled, settingsGet, hk]
  · intro w kodi m delFail t ht hk
    obtain ⟨hres, _⟩ := cleanup_cache_files_characterization w kodi m delFail
    rw [hres]
    have hout : cleanupOutcome w m delFail t = false := by
      simp [cleanupOutcome, settingsGet, hk]
    exact List.mem_map.mpr ⟨t, ht, by rw [hout]⟩

/-- Witness for `c7_cleanup_toggle_semantics`: under the empty supplied
mapping the default `Thumbnails` target is recorded as not cleaned. -/
theorem c7_cleanup_toggle_semantics_witness :
    (("Thumbnails", false) ∈
      (cleanup_cache_files { dirs := [], files := [] } [str "k"] (some [])
        (fun _ => false)).1) :=
  c7_cleanup_toggle_semantics.2.2.2 { dirs := [], files := [] } [str "k"] []
    (fun _ => false)
    { key := "thumbnails", name := "Thumbnails",
      path := [str "k"] ++ [str "userdata", str "Thumbnails"], isDirectory := true }
    (by decide) (by decide)

/-- C9: whenever `perform_full_backup` succeeds, the reported sizes satisfy
`size_before_cleanup = size_after_cleanup + space_freed` exactly, and
`size_after_cleanup` is the total of uncompressed bytes actually written to
the archive by the build pass over the post-cleanup filesystem — the
pre-cleanup size is derived arithmetically, never separately measured. -/
theorem c9_size_equation (w : World) (kodiPath : List Str) (date : String)
    (label : Str) (settings : Option (List (String × Bool)))
    (delFail : List Str → Bool) (readErr : List Str → Option String)
    (mkdirOk zipOpenOk : Bool) (statSize : Option Nat)
    (hs : (perform_full_backup w kodiPath date label settings delFail readErr
      mkdirOk zipOpenOk statSize).1.success = true) :
    (perform_full_backup w kodiPath date label settings delFail readErr
        mkdirOk zipOpenOk statSize).1.size_before_cleanup =
      (perform_full_backup w kodiPath date label settings delFail readErr
        mkdirOk zipOpenOk statSize).1.size_after_cleanup +
      (perform_full_backup w kodiPath date label settings delFail readErr
        mkdirOk zipOpenOk statSize).1.space_freed
  ∧ (perform_full_backup w kodiPath date label settings delFail readErr
        mkdirOk zipOpenOk statSize).1.size_after_cleanup =
      (buildBody (cleanup_cache_files w kodiPath settings delFail).2.2 kodiPath
        (create_backup_filename date label) readErr zipOpenOk).totalSize := by
  unfold perform_full_backup at hs ⊢
  by_cases hv : validate_kodi_directory w kodiPath = true
  · simp only [hv, not_true, if_false, Bool.not_eq_true, if_neg] at hs ⊢
    unfold create_backup_archive at hs ⊢
    by_cases hm : mkdirOk = true
    · simp only [hm, if_true] at hs ⊢
      by_cases hb : (buildBody (cleanup_cache_files w kodiPath settings delFail).2.2
          kodiPath (create_backup_filename date label) readErr zipOpenOk).success = true
      · simp [hb]
      · simp [hb, BackupRec.init] at hs
    · simp only [Bool.not_eq_true] at hm
      simp [hm, BackupRec.init] at hs
  · simp only [Bool.not_eq_true] at hv
    simp [hv, BackupRec.init] at hs

/-- Witness for `c9_size_equation`: a one-file install backed up with default
cleanup settings succeeds, so the equation is realized concretely. -/
theorem c9_size_equation_witness :
    (perform_full_backup
      { dirs := [[str "k"], [str "k", str "userdata"], [str "k", str "addons"]],
        files := [([str "k", str "userdata", str "a.txt"], [1, 2])] }
      [str "k"] "2024-01-01" [] none (fun _ => false) (fun _ => none)
      true true (some 9)).1.size_before_cleanup =
    (perform_full_backup
      { dirs := [[str "k"], [str "k", str "userdata"], [str "k", str "addons"]],
        files := [([str "k", str "userdata", str "a.txt"], [1, 2])] }
      [str "k"] "2024-01-01" [] none (fun _ => false) (fun _ => none)
      true true (some 9)).1.size_after_cleanup +
    (perform_full_backup
      { dirs := [[str "k"], [str "k", str "userdata"], [str "k", str "addons"]],
        files := [([str "k", str "userdata", str "a.txt"], [1, 2])] }
      [str "k"] "2024-01-01" [] none (fun _ => false) (fun _ => none)
      true true (some 9)).1.space_freed :=
  (c9_size_equation
    { dirs := [[str "k"], [str "k", str "userdata"], [str "k", str "addons"]],
      files := [([str "k", str "userdata", str "a.txt"], [1, 2])] }
    [str "k"] "2024-01-01" [] none (fun _ => false) (fun _ => none)
    true true (some 9) (by decide)).1

theorem append_ne_empty (s t : String) (h : s ≠ "") : s ++ t ≠ "" := by
  intro hc
  apply h
  have hd := congrArg String.data hc
  rw [String.data_append] at hd
  have h0 : ("" : String).data = [] := by decide
  rw [h0] at hd
  have h1 : s.data = [] := (List.append_eq_nil.mp hd).1
  have h2 : s = String.mk s.data := rfl
  rw [h2, h1]

theorem mkdirParents_files (w : World) (p : List Str) :
    (mkdirParents w p).files = w.files := rfl

theorem mem_dirs_mkdirParents (w : World) (p : List Str) (d : List Str)
    (h : d ∈ w.dirs) : d ∈ (mkdirParents w p).dirs :=
  List.mem_append_left _ h

theorem find?_isSome_of_exists {α : Type} {p : α → Bool} {l : List α}
    (h : ∃ x ∈ l, p x = true) : ∃ y, l.find? p = some y := by
  rcases h with ⟨x, hx, hpx⟩
  cases hf : l.find? p with
  | some y => exact ⟨y, rfl⟩
  | none => exact absurd hpx (by simpa using List.find?_eq_none.mp hf x hx)

theorem validate_ok_invalid_msg (path : Str) (entries : List ZEntry)
    (h : (validate_backup_file ⟨path, .ok entries⟩).valid = false) :
    (validate_backup_file ⟨path, .ok entries⟩).error_message ≠ "" := by
  unfold validate_backup_file at h ⊢
  by_cases hs : lowerStr (pathSuffix path) = str ".zip" <;>
  cases hu : (entries.map (fun e => replaceBackslash e.name)).any
      (fun f => firstSegOf f = str "userdata") <;>
  cases ha : (entries.map (fun e => replaceBackslash e.name)).any
      (fun f => firstSegOf f = str "addons") <;>
    simp_all [ValidationRec.init, archPresent]

/-- C1: for every archive and target directory, if any archive member fails
the safe-member check against the target, `perform_restore` returns
`success = false` with a populated error message, and the filesystem's files
are byte-for-byte unchanged while no directory has been deleted: the member
pre-scan happens before the clearing step, so no deletion or extraction
occurs (at most the empty target directory itself is created). -/
theorem c1_restore_refuses_unsafe_member (path : Str) (entries : List ZEntry)
    (target : List Str) (rmFail : List Str → Bool) (w : World)
    (hviol : ∃ e ∈ entries, is_safe_zip_member target e.name = false) :
    (perform_restore ⟨path, .ok entries⟩ target rmFail w).1.success = false
  ∧ (perform_restore ⟨path, .ok entries⟩ target rmFail w).1.error_message ≠ ""
  ∧ (perform_restore ⟨path, .ok entries⟩ target rmFail w).2.files = w.files
  ∧ (∀ d ∈ w.dirs, d ∈ (perform_restore ⟨path, .ok entries⟩ target rmFail w).2.dirs) := by
  have hfind : ∃ y, entries.find?
      (fun e => ! is_safe_zip_member target e.name) = some y := by
    apply find?_isSome_of_exists
    rcases hviol with ⟨e, he, hse⟩
    exact ⟨e, he, by simp [hse]⟩
  obtain ⟨y, hy⟩ := hfind
  have hps : ∀ (hasU hasA : Bool) (base : RestoreRec) (w1 : World),
      restoreFromPreScan ⟨path, .ok entries⟩ target rmFail hasU hasA base w1 =
        ({ base with
          error_message :=
            "Unsafe zip entry detected (path traversal): " ++ String.mk y.name,
          error_logged := true }, w1) := by
    intro hasU hasA base w1
    unfold restoreFromPreScan
    simp [hy]
  simp only [perform_restore]
  split
  · next hnv =>
    refine ⟨rfl, ?_, rfl, fun d hd => hd⟩
    exact validate_ok_invalid_msg path entries (by simpa using hnv)
  · split
    · refine ⟨rfl, ?_, rfl, fun d hd => hd⟩
      exact append_ne_empty _ _ (by decide)
    · generalize hw1 :
        (if ¬ existsPath w target = true then mkdirParents w target else w) = w1
      have hw1files : w1.files = w.files := by
        rw [← hw1]
        split
        · exact mkdirParents_files w target
        · rfl
      have hw1dirs : ∀ d ∈ w.dirs, d ∈ w1.dirs := by
        rw [← hw1]
        split
        · exact fun d hd => mem_dirs_mkdirParents w target d hd
        · exact fun d hd => hd
      split
      · split
        · refine ⟨rfl, ?_, hw1files, hw1dirs⟩
          exact (by decide : restoreRefusalMsg ≠ "")
        · rw [hps]
          refine ⟨rfl, ?_, hw1files, hw1dirs⟩
          exact append_ne_empty _ _ (by decide)
      · rw [hps]
        refine ⟨rfl, ?_, hw1files, hw1dirs⟩
        exact append_ne_empty _ _ (by decide)

/-- Witness for `c1_restore_refuses_unsafe_member`: restoring an archive with
the traversal member `userdata/../../escape.txt` into an existing install
leaves its files untouched and fails with a message. -/
theorem c1_restore_refuses_unsafe_member_witness :
    (perform_restore
      ⟨str "b.zip", .ok [⟨str "userdata/x", [7]⟩, ⟨str "addons/y", [8]⟩,
        ⟨str "userdata/../../escape.txt", [9]⟩]⟩
      [str "t"] (fun _ => false)
      { dirs := [[str "t"], [str "t", str "userdata"], [str "t", str "addons"]],
        files := [([str "t", str "userdata", str "old"], [5])] }).1.success = false
  ∧ (perform_restore
      ⟨str "b.zip", .ok [⟨str "userdata/x", [7]⟩, ⟨str "addons/y", [8]⟩,
        ⟨str "userdata/../../escape.txt", [9]⟩]⟩
      [str "t"] (fun _ => false)
      { dirs := [[str "t"], [str "t", str "userdata"], [str "t", str "addons"]],
        files := [([str "t", str "userdata", str "old"], [5])] }).2.files =
      [([str "t", str "userdata", str "old"], [5])] := by
  have h := c1_restore_refuses_unsafe_member (str "b.zip")
    [⟨str "userdata/x", [7]⟩, ⟨str "addons/y", [8]⟩,
      ⟨str "userdata/../../escape.txt", [9]⟩]
    [str "t"] (fun _ => false)
    { dirs := [[str "t"], [str "t", str "userdata"], [str "t", str "addons"]],
      files := [([str "t", str "userdata", str "old"], [5])] }
    ⟨⟨str "userdata/../../escape.txt", [9]⟩, by decide, by decide⟩
  exact ⟨h.1, h.2.2.1⟩

/-- C6: when the restore target exists, is not a filesystem root, and lacks
the `userdata`/`addons` pair, a validated restore proceeds to the member
pre-scan exactly when every entry of the target is allow-listed OS noise,
and otherwise stops with `success = false` and the refusal message, leaving
the filesystem untouched; in particular a target holding only `Desktop.ini`
is accepted (the restore completes) and a target holding `notes.txt` is
refused. -/
theorem c6_target_allowlist_gate :
    (∀ (bf : BackupFile) (target : List Str) (rmFail : List Str → Bool) (w : World),
      (validate_backup_file bf).valid = true →
      is_drive_root target = false →
      existsPath w target = true →
      ¬ (isDirPath w (target ++ [str "userdata"]) = true ∧
         isDirPath w (target ++ [str "addons"]) = true) →
      ((∀ n ∈ childNames w target, lowerStr n ∈ allowedNoiseNames) →
        perform_restore bf target rmFail w =
          restoreFromPreScan bf target rmFail
            (isDirPath w (target ++ [str "userdata"]))
            (isDirPath w (target ++ [str "addons"]))
            { RestoreRec.init with
              userdata_files := (validate_backup_file bf).userdata_files,
              addons_files := (validate_backup_file bf).addons_files,
              total_size := (validate_backup_file bf).total_size } w)
      ∧ ((∃ n ∈ childNames w target, lowerStr n ∉ allowedNoiseNames) →
          (perform_restore bf target rmFail w).1.success = false ∧
          (perform_restore bf target rmFail w).1.error_message = restoreRefusalMsg ∧
          (perform_restore bf target rmFail w).2 = w))
  ∧ ((perform_restore
      ⟨str "b.zip", .ok [⟨str "userdata/x", [7]⟩, ⟨str "addons/y", [8]⟩]⟩
      [str "t"] (fun _ => false)
      { dirs := [[str "t"]],
        files := [([str "t", str "Desktop.ini"], [0])] }).1.success = true)
  ∧ ((perform_restore
      ⟨str "b.zip", .ok [⟨str "userdata/x", [7]⟩, ⟨str "addons/y", [8]⟩]⟩
      [str "t"] (fun _ => false)
      { dirs := [[str "t"]],
        files := [([str "t", str "notes.txt"], [0])] }).1.success = false
  ∧ (perform_restore
      ⟨str "b.zip", .ok [⟨str "userdata/x", [7]⟩, ⟨str "addons/y", [8]⟩]⟩
      [str "t"] (fun _ => false)
      { dirs := [[str "t"]],
        files := [([str "t", str "notes.txt"], [0])] }).1.error_message =
      restoreRefusalMsg) := by
  refine ⟨?_, by decide, by decide, by decide⟩
  intro bf target rmFail w hv hroot hex hnk
  have hand : (isDirPath w (target ++ [str "userdata"]) &&
      isDirPath w (target ++ [str "addons"])) = false := by
    cases hU : isDirPath w (target ++ [str "userdata"]) <;>
    cases hA : isDirPath w (target ++ [str "addons"]) <;> simp_all
  constructor
  · intro hall
    have hany : (childNames w target).any
        (fun n => decide (lowerStr n ∉ allowedNoiseNames)) = false := by
      rw [List.any_eq_false]
      intro n hn
      simpa using hall n hn
    simp [perform_restore, hv, hroot, hex, hand, hany]
    intro x hx hnall
    exact absurd (hall x hx) hnall
  · intro hexists
    have hany : (childNames w target).any
        (fun n => decide (lowerStr n ∉ allowedNoiseNames)) = true := by
      rw [List.any_eq_true]
      rcases hexists with ⟨n, hn, hnall⟩
      exact ⟨n, hn, by simpa using hnall⟩
    refine ⟨?_, ?_, ?_⟩ <;>
      simp [perform_restore, hv, hroot, hex, hand, hany, hexists, RestoreRec.init]

/-- Witness for `c6_target_allowlist_gate`: for a target containing only
`Desktop.ini` the orchestrator reaches the member pre-scan. -/
theorem c6_target_allowlist_gate_witness :
    perform_restore
      ⟨str "b.zip", .ok [⟨str "userdata/x", [7]⟩, ⟨str "addons/y", [8]⟩]⟩
      [str "t"] (fun _ => false)
      { dirs := [[str "t"]], files := [([str "t", str "Desktop.ini"], [0])] } =
    restoreFromPreScan
      ⟨str "b.zip", .ok [⟨str "userdata/x", [7]⟩, ⟨str "addons/y", [8]⟩]⟩
      [str "t"] (fun _ => false)
      (isDirPath
        { dirs := [[str "t"]], files := [([str "t", str "Desktop.ini"], [0])] }
        ([str "t"] ++ [str "userdata"]))
      (isDirPath
        { dirs := [[str "t"]], files := [([str "t", str "Desktop.ini"], [0])] }
        ([str "t"] ++ [str "addons"]))
      { RestoreRec.init with
        userdata_files := (validate_backup_file
          ⟨str "b.zip", .ok [⟨str "userdata/x", [7]⟩, ⟨str "addons/y", [8]⟩]⟩).userdata_files,
        addons_files := (validate_backup_file
          ⟨str "b.zip", .ok [⟨str "userdata/x", [7]⟩, ⟨str "addons/y", [8]⟩]⟩).addons_files,
        total_size := (validate_backup_file
          ⟨str "b.zip", .ok [⟨str "userdata/x", [7]⟩, ⟨str "addons/y", [8]⟩]⟩).total_size }
      { dirs := [[str "t"]], files := [([str "t", str "Desktop.ini"], [0])] } :=
  (c6_target_allowlist_gate.1
    ⟨str "b.zip", .ok [⟨str "userdata/x", [7]⟩, ⟨str "addons/y", [8]⟩]⟩
    [str "t"] (fun _ => false)
    { dirs := [[str "t"]], files := [([str "t", str "Desktop.ini"], [0])] }
    (by decide) (by decide) (by decide) (by decide)).1 (by decide)

theorem buildFileStep_foldl_spec (readErr : List Str → Option String)
    (totalFiles : Nat) (kodiPath : List Str) (files : List (List Str × Data)) :
    ∀ acc : BuildAcc,
    ((files.foldl (buildFileStep readErr totalFiles kodiPath) acc).skipped =
      acc.skipped + (files.filter (fun f => (readErr f.1).isSome)).length)
  ∧ ((files.foldl (buildFileStep readErr totalFiles kodiPath) acc).entries =
      acc.entries ++ (files.filter (fun f => readErr f.1 = none)).map
        (fun f => ⟨replaceBackslash (joinSlash (f.1.drop kodiPath.length)), f.2⟩))
  ∧ ((files.foldl (buildFileStep readErr totalFiles kodiPath) acc).total =
      acc.total + ((files.filter (fun f => readErr f.1 = none)).map
        (fun f => f.2.length)).sum)
  ∧ (acc.examples.length ≤ 10 →
      (files.foldl (buildFileStep readErr totalFiles kodiPath) acc).examples.length ≤ 10) := by
  induction files with
  | nil => intro acc; simp
  | cons f rest ih =>
    intro acc
    rw [List.foldl_cons]
    cases hre : readErr f.1 with
    | some e =>
      have hstep : buildFileStep readErr totalFiles kodiPath acc f =
          { acc with
            skipped := acc.skipped + 1,
            examples :=
              if acc.examples.length < 10 then
                acc.examples ++
                  [(replaceBackslash (joinSlash (f.1.drop kodiPath.length)), e)]
              else acc.examples } := by
        simp [buildFileStep, hre]
      rw [hstep]
      obtain ⟨h1, h2, h3, h4⟩ := ih _
      refine ⟨?_, ?_, ?_, ?_⟩
      · rw [h1]
        simp [List.filter_cons, hre]
        omega
      · rw [h2]
        simp [List.filter_cons, hre]
      · rw [h3]
        simp [List.filter_cons, hre]
      · intro hle
        apply h4
        split
        · simp
          omega
        · exact hle
    | none =>
      have hstep : ∃ m l, buildFileStep readErr totalFiles kodiPath acc f =
          { acc with
            current := acc.current + 1, lastUpd := l,
            total := acc.total + f.2.length,
            entries := acc.entries ++
              [⟨replaceBackslash (joinSlash (f.1.drop kodiPath.length)), f.2⟩],
            msgs := m } := by
        simp only [buildFileStep, hre]
        split
        · exact ⟨_, _, rfl⟩
        · exact ⟨_, _, rfl⟩
      obtain ⟨m, l, hstep⟩ := hstep
      rw [hstep]
      obtain ⟨h1, h2, h3, h4⟩ := ih _
      refine ⟨?_, ?_, ?_, ?_⟩
      · rw [h1]
        simp [List.filter_cons, hre]
      · rw [h2]
        simp [List.filter_cons, hre]
      · rw [h3]
        simp [List.filter_cons, hre]
        omega
      · exact h4

/-- The skip accounting of the archive-writing pass when the destination
archive can be opened: the build reports success, the skip counter counts
exactly the files whose read or write failed, at most 10 example reasons are
retained, and the progress stream ends with the completion line carrying the
total skip count followed by exactly the retained example lines. -/
theorem buildBody_c4_spec (w : World) (kodiPath : List Str) (filename : String)
    (readErr : List Str → Option String) :
    ((buildBody w kodiPath filename readErr true).success = true)
  ∧ ((buildBody w kodiPath filename readErr true).skipped =
      ((backupSubdirs kodiPath).filter (fun d => existsPath w d)).foldl
        (fun n d => n + ((filesUnder w d).filter
          (fun f => (readErr f.1).isSome)).length) 0)
  ∧ ((buildBody w kodiPath filename readErr true).examples.length ≤ 10)
  ∧ (∃ ms, (buildBody w kodiPath filename readErr true).msgs =
      ms ++ ["ZIP creation completed with " ++
        toString (buildBody w kodiPath filename readErr true).skipped ++
        " skipped files"] ++
      (if (buildBody w kodiPath filename readErr true).skipped > 0 then
        (buildBody w kodiPath filename readErr true).examples.map
          (fun p => "Skipped: " ++ String.mk p.1 ++ " (" ++ p.2 ++ ")")
      else [])) := by
  unfold buildBody
  simp only [Bool.not_eq_true, Bool.true_eq_false, if_false, backupSubdirs,
    List.foldl_cons, List.foldl_nil, List.filter_cons, List.filter_nil]
  by_cases e1 : existsPath w (kodiPath ++ [str "userdata"]) = true <;>
  by_cases e2 : existsPath w (kodiPath ++ [str "addons"]) = true <;>
    simp only [e1, e2, Bool.false_eq_true, if_true, if_false] <;>
    refine ⟨rfl, ?_, ?_, ?_⟩
  · obtain ⟨s1, n1, t1, x1⟩ := buildFileStep_foldl_spec readErr _ kodiPath
      (filesUnder w (kodiPath ++ [str "userdata"])) _
    rw [(buildFileStep_foldl_spec readErr _ kodiPath
      (filesUnder w (kodiPath ++ [str "addons"])) _).1, s1]
    simp
  · apply (buildFileStep_foldl_spec readErr _ kodiPath
      (filesUnder w (kodiPath ++ [str "addons"])) _).2.2.2
    apply (buildFileStep_foldl_spec readErr _ kodiPath
      (filesUnder w (kodiPath ++ [str "userdata"])) _).2.2.2
    simp
  · exact ⟨_, rfl⟩
  · rw [(buildFileStep_foldl_spec readErr _ kodiPath
      (filesUnder w (kodiPath ++ [str "userdata"])) _).1]
    simp
  · apply (buildFileStep_foldl_spec readErr _ kodiPath
      (filesUnder w (kodiPath ++ [str "userdata"])) _).2.2.2
    simp
  · exact ⟨_, rfl⟩
  · rw [(buildFileStep_foldl_spec readErr _ kodiPath
      (filesUnder w (kodiPath ++ [str "addons"])) _).1]
    simp
  · apply (buildFileStep_foldl_spec readErr _ kodiPath
      (filesUnder w (kodiPath ++ [str "addons"])) _).2.2.2
    simp
  · exact ⟨_, rfl⟩
  · simp
  · simp
  · exact ⟨_, rfl⟩

/-- C4 counterexample: ensuring the destination directory
(`backup_dir.mkdir(parents=True, exist_ok=True)`) happens before the
`try:` block, so when it fails (destination path uncreatable, e.g. an
existing file), `create_backup_archive` raises instead of returning a
`(success, total)` pair — the claim's "always returns rather than raising"
is false. -/
theorem c4_mkdir_failure_counterexample :
    create_backup_archive { dirs := [], files := [] } [str "k"] "kodi.bkup.zip"
      (fun _ => none) false true =
      Except.error "cannot create backup destination directory" := rfl

/-- C4 (amended): provided ensuring the destination directory succeeds,
`create_backup_archive` returns a `(success, total)` pair rather than
raising; it returns `success = false` exactly when opening the destination
archive for writing fails, so no number of per-file skips makes it return
false; each per-file failure is caught and counted; at most 10 skip reasons
are retained and surfaced to the progress stream; and the completion line
always reports the total skip count. -/
theorem c4_build_skip_accounting (w : World) (kodiPath : List Str)
    (filename : String) (readErr : List Str → Option String) (zipOpenOk : Bool) :
    (create_backup_archive w kodiPath filename readErr true zipOpenOk =
      .ok (buildBody w kodiPath filename readErr zipOpenOk))
  ∧ ((buildBody w kodiPath filename readErr zipOpenOk).success = false ↔
      zipOpenOk = false)
  ∧ (zipOpenOk = true →
      ((buildBody w kodiPath filename readErr true).skipped =
        ((backupSubdirs kodiPath).filter (fun d => existsPath w d)).foldl
          (fun n d => n + ((filesUnder w d).filter
            (fun f => (readErr f.1).isSome)).length) 0)
    ∧ ((buildBody w kodiPath filename readErr true).examples.length ≤ 10)
    ∧ (∃ ms, (buildBody w kodiPath filename readErr true).msgs =
        ms ++ ["ZIP creation completed with " ++
          toString (buildBody w kodiPath filename readErr true).skipped ++
          " skipped files"] ++
        (if (buildBody w kodiPath filename readErr true).skipped > 0 then
          (buildBody w kodiPath filename readErr true).examples.map
            (fun p => "Skipped: " ++ String.mk p.1 ++ " (" ++ p.2 ++ ")")
        else []))) := by
  refine ⟨by simp [create_backup_archive], ?_, ?_⟩
  · cases zipOpenOk
    · simp [buildBody]
    · simp [(buildBody_c4_spec w kodiPath filename readErr).1]
  · intro _
    exact ⟨(buildBody_c4_spec w kodiPath filename readErr).2.1,
      (buildBody_c4_spec w kodiPath filename readErr).2.2.1,
      (buildBody_c4_spec w kodiPath filename readErr).2.2.2⟩

/-- Witness for `c4_build_skip_accounting`: with one unreadable file, the
build still succeeds and counts exactly one skip. -/
theorem c4_build_skip_accounting_witness :
    (buildBody
      { dirs := [[str "k"], [str "k", str "userdata"], [str "k", str "addons"]],
        files := [([str "k", str "userdata", str "bad"], [1]),
          ([str "k", str "userdata", str "good"], [2])] }
      [str "k"] "f.zip"
      (fun p => if p = [str "k", str "userdata", str "bad"]
        then some "unreadable" else none) true).skipped =
    (((backupSubdirs [str "k"]).filter (fun d => existsPath
      { dirs := [[str "k"], [str "k", str "userdata"], [str "k", str "addons"]],
        files := [([str "k", str "userdata", str "bad"], [1]),
          ([str "k", str "userdata", str "good"], [2])] } d)).foldl
      (fun n d => n + ((filesUnder
        { dirs := [[str "k"], [str "k", str "userdata"], [str "k", str "addons"]],
          files := [([str "k", str "userdata", str "bad"], [1]),
            ([str "k", str "userdata", str "good"], [2])] } d).filter
        (fun f => ((fun p => if p = [str "k", str "userdata", str "bad"]
          then some "unreadable" else none) f.1).isSome)).length) 0) :=
  ((c4_build_skip_accounting
    { dirs := [[str "k"], [str "k", str "userdata"], [str "k", str "addons"]],
      files := [([str "k", str "userdata", str "bad"], [1]),
        ([str "k", str "userdata", str "good"], [2])] }
    [str "k"] "f.zip"
    (fun p => if p = [str "k", str "userdata", str "bad"]
      then some "unreadable" else none) true).2.2 rfl).1

theorem endsWithSlash_append (s x : Str) (hx : x ≠ []) :
    endsWithSlash (s ++ x) = endsWithSlash x := by
  unfold endsWithSlash
  rw [List.getLast?_append]
  cases hgl : x.getLast? with
  | none =>
    exact absurd (List.getLast?_eq_none_iff.mp hgl) hx
  | some c => rfl

theorem endsWithSlash_joinSlash_plain (segs : List Str) (hne : segs ≠ [])
    (hp : ∀ s ∈ segs, plainSeg s) :
    endsWithSlash (joinSlash segs) = false := by
  induction segs with
  | nil => exact absurd rfl hne
  | cons s rest ih =>
    cases rest with
    | nil =>
      show endsWithSlash s = false
      simp only [endsWithSlash, decide_eq_false_iff_not]
      intro hc
      exact (hp s (by simp)).2.1 (List.mem_of_getLast?_eq_some hc)
    | cons a b =>
      have hj : joinSlash (s :: a :: b) = s ++ '/' :: joinSlash (a :: b) := rfl
      rw [hj, endsWithSlash_append s _ (by simp)]
      have hja : joinSlash (a :: b) ≠ [] := by
        obtain ⟨t, ht⟩ := joinSlash_eq_head_append a b
        rw [ht]
        intro hc
        exact (hp a (by simp)).1 (List.append_eq_nil.mp hc).1
      have : endsWithSlash ('/' :: joinSlash (a :: b)) =
          endsWithSlash (joinSlash (a :: b)) := by
        show endsWithSlash ([ '/' ] ++ joinSlash (a :: b)) = _
        exact endsWithSlash_append ['/'] _ hja
      rw [this]
      exact ih (by simp) (fun t ht => hp t (by simp [ht]))

theorem setFileKey_of_fresh (fs : List (List Str × Data)) (p : List Str) (d : Data)
    (h : ∀ g ∈ fs, g.1 ≠ p) : setFileKey fs p d = fs ++ [(p, d)] := by
  induction fs with
  | nil => rfl
  | cons g rest ih =>
    rw [setFileKey, if_neg, ih (fun g' hg' => h g' (by simp [hg']))]
    · rfl
    · exact h g (by simp)

theorem mem_filesUnder (w : World) (p : List Str) (f : List Str × Data) :
    f ∈ filesUnder w p ↔ f ∈ w.files ∧ p <+: f.1 ∧ f.1 ≠ p := by
  simp [filesUnder, List.mem_filter]

theorem startsWithDrive_joinSlash_userdata (tail : List Str) :
    startsWithDrive (joinSlash (str "userdata" :: tail)) = false := by
  obtain ⟨t, ht⟩ := joinSlash_eq_head_append (str "userdata") tail
  rw [ht]
  have hu : str "userdata" = 'u' :: 's' :: str "erdata" := by decide
  rw [hu]
  simp [startsWithDrive]

theorem startsWithDrive_joinSlash_addons (tail : List Str) :
    startsWithDrive (joinSlash (str "addons" :: tail)) = false := by
  obtain ⟨t, ht⟩ := joinSlash_eq_head_append (str "addons") tail
  rw [ht]
  have hu : str "addons" = 'a' :: 'd' :: str "dons" := by decide
  rw [hu]
  simp [startsWithDrive]

theorem normpathSegs_plain_self (p : List Str)
    (hp : ∀ s ∈ p, s ≠ [] ∧ s ≠ ['.'] ∧ s ≠ ['.', '.']) :
    normpathSegs p = p := by
  have := foldl_normStep_plain p [] hp
  simpa [normpathSegs] using this

theorem extractLoop_plain_spec (target : List Str)
    (htp : ∀ s ∈ target, s ≠ [] ∧ s ≠ ['.'] ∧ s ≠ ['.', '.'])
    (total : Nat) (fs : List (List Str × Data)) :
    ∀ st : ExtractSt,
    (∀ f ∈ fs, f.1 ≠ [] ∧ (∀ s ∈ f.1, plainSeg s) ∧
      startsWithDrive (joinSlash f.1) = false) →
    (∀ f ∈ fs, ∀ g ∈ st.w.files, g.1 ≠ target ++ f.1) →
    List.Pairwise (fun a b => a.1 ≠ b.1) fs →
    ((extractLoop target total (fs.map (fun f => ⟨joinSlash f.1, f.2⟩)) st).1 = true
  ∧ (extractLoop target total (fs.map (fun f => ⟨joinSlash f.1, f.2⟩)) st).2.w.files =
      st.w.files ++ fs.map (fun f => (target ++ f.1, f.2))) := by
  induction fs with
  | nil => intro st _ _ _; simp [extractLoop]
  | cons f rest ih =>
    intro st hplain hfresh hpw
    obtain ⟨hfp, hfs, hfd⟩ := hplain f (by simp)
    have hnb : '\\' ∉ joinSlash f.1 :=
      backslash_not_in_joinSlash _ (fun s hs => (hfs s hs).2.2.1)
    have hrepl : replaceBackslash (joinSlash f.1) = joinSlash f.1 :=
      replaceBackslash_eq_self _ hnb
    have hsafe : is_safe_zip_member target (joinSlash f.1) = true :=
      is_safe_zip_member_plain target f.1 hfp hfs hfd
    have hslash : endsWithSlash (joinSlash f.1) = false :=
      endsWithSlash_joinSlash_plain f.1 hfp hfs
    have hdest : destSegsOf target (joinSlash f.1) = target ++ f.1 := by
      unfold destSegsOf
      rw [splitOnSlash_joinSlash f.1 hfp (fun s hs => (hfs s hs).2.1),
        normpathSegs_append_plain target f.1
          (fun s hs => ⟨(hfs s hs).1, (hfs s hs).2.2.2.1, (hfs s hs).2.2.2.2⟩),
        normpathSegs_plain_self target htp]
    have hwf : (writeFile st.w (target ++ f.1) f.2).files =
        st.w.files ++ [(target ++ f.1, f.2)] := by
      show setFileKey (mkdirParents st.w (target ++ f.1).dropLast).files _ _ = _
      rw [mkdirParents_files]
      exact setFileKey_of_fresh _ _ _ (fun g hg => hfresh f (by simp) g hg)
    rw [List.map_cons]
    simp only [extractLoop, hslash, Bool.false_eq_true, if_false, hrepl, hsafe,
      not_true, hdest]
    repeat' split
    all_goals
      exact ⟨(ih _ (fun f' hf' => hplain f' (by simp [hf']))
          (by
            intro f' hf' g hg
            have hg' : g ∈ st.w.files ++ [(target ++ f.1, f.2)] := by
              rw [← hwf]
              exact hg
            rcases List.mem_append.mp hg' with hold | hnew
            · exact hfresh f' (by simp [hf']) g hold
            · rcases List.mem_singleton.mp hnew with rfl
              intro hc
              exact (List.pairwise_cons.mp hpw).1 f' hf' (List.append_cancel_left hc))
          (List.pairwise_cons.mp hpw).2).1,
        by
          rw [(ih _ (fun f' hf' => hplain f' (by simp [hf']))
            (by
              intro f' hf' g hg
              have hg' : g ∈ st.w.files ++ [(target ++ f.1, f.2)] := by
                rw [← hwf]
                exact hg
              rcases List.mem_append.mp hg' with hold | hnew
              · exact hfresh f' (by simp [hf']) g hold
              · rcases List.mem_singleton.mp hnew with rfl
                intro hc
                exact (List.pairwise_cons.mp hpw).1 f' hf' (List.append_cancel_left hc))
            (List.pairwise_cons.mp hpw).2).2]
          simp [hwf]⟩

theorem buildBody_entries_no_err (w : World) (kodiPath : List Str) (filename : String)
    (e1 : existsPath w (kodiPath ++ [str "userdata"]) = true)
    (e2 : existsPath w (kodiPath ++ [str "addons"]) = true) :
    (buildBody w kodiPath filename (fun _ => none) true).entries =
      (filesUnder w (kodiPath ++ [str "userdata"]) ++
       filesUnder w (kodiPath ++ [str "addons"])).map
        (fun f => ⟨replaceBackslash (joinSlash (f.1.drop kodiPath.length)), f.2⟩) := by
  unfold buildBody
  simp only [Bool.not_eq_true, Bool.true_eq_false, if_false, backupSubdirs,
    List.foldl_cons, List.foldl_nil, e1, e2, if_true]
  rw [(buildFileStep_foldl_spec _ _ kodiPath
      (filesUnder w (kodiPath ++ [str "addons"])) _).2.1,
    (buildFileStep_foldl_spec _ _ kodiPath
      (filesUnder w (kodiPath ++ [str "userdata"])) _).2.1]
  simp

theorem filesUnder_split_userdata (w₁ : World) (kodi : List Str) :
    ∀ f ∈ filesUnder w₁ (kodi ++ [str "userdata"]),
      f.1.drop kodi.length =
        str "userdata" :: f.1.drop (kodi ++ [str "userdata"]).length := by
  intro f hf
  obtain ⟨_, hpre, _⟩ := (mem_filesUnder w₁ _ f).mp hf
  have h1 : (kodi ++ [str "userdata"]) ++
      f.1.drop (kodi ++ [str "userdata"]).length = f.1 :=
    List.prefix_iff_eq_append.mp hpre
  conv_lhs => rw [← h1]
  rw [List.append_assoc, List.drop_left]
  rfl

theorem filesUnder_split_addons (w₁ : World) (kodi : List Str) :
    ∀ f ∈ filesUnder w₁ (kodi ++ [str "addons"]),
      f.1.drop kodi.length =
        str "addons" :: f.1.drop (kodi ++ [str "addons"]).length := by
  intro f hf
  obtain ⟨_, hpre, _⟩ := (mem_filesUnder w₁ _ f).mp hf
  have h1 : (kodi ++ [str "addons"]) ++
      f.1.drop (kodi ++ [str "addons"]).length = f.1 :=
    List.prefix_iff_eq_append.mp hpre
  conv_lhs => rw [← h1]
  rw [List.append_assoc, List.drop_left]
  rfl

theorem filesUnder_rel_recompose (w₁ : World) (kodi : List Str) (d : Str) :
    ∀ f ∈ filesUnder w₁ (kodi ++ [d]), kodi ++ f.1.drop kodi.length = f.1 := by
  intro f hf
  obtain ⟨_, hpre, _⟩ := (mem_filesUnder w₁ _ f).mp hf
  have hk : kodi <+: f.1 := (List.prefix_append kodi [d]).trans hpre
  exact List.prefix_iff_eq_append.mp hk

theorem filesUnder_cross_ne (w₁ : World) (kodi : List Str) :
    ∀ a ∈ filesUnder w₁ (kodi ++ [str "userdata"]),
    ∀ b ∈ filesUnder w₁ (kodi ++ [str "addons"]), a.1 ≠ b.1 := by
  intro a ha b hb hc
  obtain ⟨_, hpa, _⟩ := (mem_filesUnder w₁ _ a).mp ha
  obtain ⟨_, hpb, _⟩ := (mem_filesUnder w₁ _ b).mp hb
  rw [hc] at hpa
  have hlen : (kodi ++ [str "userdata"]).length = (kodi ++ [str "addons"]).length := by
    simp
  have heq : kodi ++ [str "userdata"] = kodi ++ [str "addons"] := by
    rcases List.prefix_or_prefix_of_prefix hpa hpb with h | h
    · exact List.IsPrefix.eq_of_length h hlen
    · exact (List.IsPrefix.eq_of_length h hlen.symm).symm
  have := List.append_cancel_left heq
  simp at this
  exact absurd this (by decide)

/-- C3 (amended): for a source tree whose file names under `userdata` and
`addons` are plain (in particular contain no backslash), building the archive
and extracting it into an empty target directory reproduces exactly the
source's files under the two subtrees, at the same relative paths and with
identical byte contents. -/
theorem c3_roundtrip_plain_names (w₁ : World) (kodi : List Str) (w₂ : World)
    (target : List Str) (path : Str) (fname : String)
    (htp : ∀ s ∈ target, s ≠ [] ∧ s ≠ ['.'] ∧ s ≠ ['.', '.'])
    (e1 : existsPath w₁ (kodi ++ [str "userdata"]) = true)
    (e2 : existsPath w₁ (kodi ++ [str "addons"]) = true)
    (hplain : ∀ f ∈ filesUnder w₁ (kodi ++ [str "userdata"]) ++
        filesUnder w₁ (kodi ++ [str "addons"]),
      ∀ s ∈ f.1.drop kodi.length, plainSeg s)
    (hnodup : List.Pairwise (fun a b : List Str × Data => a.1 ≠ b.1) w₁.files)
    (hempty : ∀ g ∈ w₂.files, ¬ target <+: g.1) :
    ((buildBody w₁ kodi fname (fun _ => none) true).success = true)
  ∧ ((extract_backup_with_progress
      ⟨path, .ok (buildBody w₁ kodi fname (fun _ => none) true).entries⟩
      target w₂).1 = true)
  ∧ ((extract_backup_with_progress
      ⟨path, .ok (buildBody w₁ kodi fname (fun _ => none) true).entries⟩
      target w₂).2.1.files =
      w₂.files ++
        (filesUnder w₁ (kodi ++ [str "userdata"]) ++
         filesUnder w₁ (kodi ++ [str "addons"])).map
          (fun f => (target ++ f.1.drop kodi.length, f.2)))
  ∧ (((extract_backup_with_progress
      ⟨path, .ok (buildBody w₁ kodi fname (fun _ => none) true).entries⟩
      target w₂).2.1.files.filter
        (fun g => (target ++ [str "userdata"]).isPrefixOf g.1)).length =
      (filesUnder w₁ (kodi ++ [str "userdata"])).length)
  ∧ (((extract_backup_with_progress
      ⟨path, .ok (buildBody w₁ kodi fname (fun _ => none) true).entries⟩
      target w₂).2.1.files.filter
        (fun g => (target ++ [str "addons"]).isPrefixOf g.1)).length =
      (filesUnder w₁ (kodi ++ [str "addons"])).length) := by
  have hF1 := filesUnder_split_userdata w₁ kodi
  have hF2 := filesUnder_split_addons w₁ kodi
  have hrelspec : ∀ f ∈ filesUnder w₁ (kodi ++ [str "userdata"]) ++
      filesUnder w₁ (kodi ++ [str "addons"]),
      f.1.drop kodi.length ≠ [] ∧ (∀ s ∈ f.1.drop kodi.length, plainSeg s) ∧
      startsWithDrive (joinSlash (f.1.drop kodi.length)) = false := by
    intro f hf
    refine ⟨?_, hplain f hf, ?_⟩
    · rcases List.mem_append.mp hf with h | h
      · rw [hF1 f h]; exact List.cons_ne_nil _ _
      · rw [hF2 f h]; exact List.cons_ne_nil _ _
    · rcases List.mem_append.mp hf with h | h
      · rw [hF1 f h]; exact startsWithDrive_joinSlash_userdata _
      · rw [hF2 f h]; exact startsWithDrive_joinSlash_addons _
  have hkeys : List.Pairwise (fun a b : List Str × Data => a.1 ≠ b.1)
      (filesUnder w₁ (kodi ++ [str "userdata"]) ++
       filesUnder w₁ (kodi ++ [str "addons"])) := by
    rw [List.pairwise_append]
    refine ⟨?_, ?_, filesUnder_cross_ne w₁ kodi⟩
    · exact List.Pairwise.sublist
        (by unfold filesUnder; exact List.filter_sublist _) hnodup
    · exact List.Pairwise.sublist
        (by unfold filesUnder; exact List.filter_sublist _) hnodup
  have hrec : ∀ f ∈ filesUnder w₁ (kodi ++ [str "userdata"]) ++
      filesUnder w₁ (kodi ++ [str "addons"]),
      kodi ++ f.1.drop kodi.length = f.1 := by
    intro f hf
    rcases List.mem_append.mp hf with h | h
    · exact filesUnder_rel_recompose w₁ kodi _ f h
    · exact filesUnder_rel_recompose w₁ kodi _ f h
  have hrelinj : List.Pairwise (fun a b : List Str × Data =>
      a.1.drop kodi.length ≠ b.1.drop kodi.length)
      (filesUnder w₁ (kodi ++ [str "userdata"]) ++
       filesUnder w₁ (kodi ++ [str "addons"])) := by
    refine List.Pairwise.imp_of_mem ?_ hkeys
    intro a b ha hb hne hc
    apply hne
    rw [← hrec a ha, ← hrec b hb, hc]
  have hentries : (buildBody w₁ kodi fname (fun _ => none) true).entries =
      ((filesUnder w₁ (kodi ++ [str "userdata"]) ++
        filesUnder w₁ (kodi ++ [str "addons"])).map
        (fun f => (f.1.drop kodi.length, f.2))).map
        (fun p => ⟨joinSlash p.1, p.2⟩) := by
    rw [buildBody_entries_no_err w₁ kodi fname e1 e2, List.map_map]
    apply List.map_congr_left
    intro f hf
    have hnb : '\\' ∉ joinSlash (f.1.drop kodi.length) :=
      backslash_not_in_joinSlash _ (fun s hs => ((hplain f hf) s hs).2.2.1)
    simp [Function.comp, replaceBackslash_eq_self _ hnb]
  have hplain2 : ∀ p ∈ (filesUnder w₁ (kodi ++ [str "userdata"]) ++
      filesUnder w₁ (kodi ++ [str "addons"])).map
        (fun f => (f.1.drop kodi.length, f.2)),
      p.1 ≠ [] ∧ (∀ s ∈ p.1, plainSeg s) ∧
      startsWithDrive (joinSlash p.1) = false := by
    intro p hp
    obtain ⟨f, hf, rfl⟩ := List.mem_map.mp hp
    exact ⟨(hrelspec f hf).1, (hrelspec f hf).2.1, (hrelspec f hf).2.2⟩
  have hpair2 : List.Pairwise (fun a b : List Str × Data => a.1 ≠ b.1)
      ((filesUnder w₁ (kodi ++ [str "userdata"]) ++
        filesUnder w₁ (kodi ++ [str "addons"])).map
        (fun f => (f.1.drop kodi.length, f.2))) :=
    List.Pairwise.map _ (fun a b hab => hab) hrelinj
  have hEX : ((extract_backup_with_progress
      ⟨path, .ok (buildBody w₁ kodi fname (fun _ => none) true).entries⟩
      target w₂).1 = true)
    ∧ ((extract_backup_with_progress
      ⟨path, .ok (buildBody w₁ kodi fname (fun _ => none) true).entries⟩
      target w₂).2.1.files =
      w₂.files ++ ((filesUnder w₁ (kodi ++ [str "userdata"]) ++
        filesUnder w₁ (kodi ++ [str "addons"])).map
        (fun f => (f.1.drop kodi.length, f.2))).map
        (fun p => (target ++ p.1, p.2))) := by
    rw [hentries]
    simp only [extract_backup_with_progress]
    constructor
    · split
      · rfl
      · next h =>
        exact absurd ((extractLoop_plain_spec target htp _ _ _ hplain2
          (by
            intro f hf g hg
            have hg2 : g ∈ w₂.files := hg
            intro hc
            exact hempty g hg2 (hc ▸ List.prefix_append target f.1)) hpair2).1) h
    · split
      · next h =>
        rw [(extractLoop_plain_spec target htp _ _ _ hplain2
          (by
            intro f hf g hg
            have hg2 : g ∈ w₂.files := hg
            intro hc
            exact hempty g hg2 (hc ▸ List.prefix_append target f.1)) hpair2).2]
      · next h =>
        exact absurd ((extractLoop_plain_spec target htp _ _ _ hplain2
          (by
            intro f hf g hg
            have hg2 : g ∈ w₂.files := hg
            intro hc
            exact hempty g hg2 (hc ▸ List.prefix_append target f.1)) hpair2).1) h
  have hmapmap : ((filesUnder w₁ (kodi ++ [str "userdata"]) ++
      filesUnder w₁ (kodi ++ [str "addons"])).map
        (fun f => (f.1.drop kodi.length, f.2))).map
        (fun p => ((target ++ p.1 : List Str), p.2)) =
      (filesUnder w₁ (kodi ++ [str "userdata"]) ++
       filesUnder w₁ (kodi ++ [str "addons"])).map
        (fun f => (target ++ f.1.drop kodi.length, f.2)) := by
    rw [List.map_map]
    rfl
  have hfe : (extract_backup_with_progress
      ⟨path, .ok (buildBody w₁ kodi fname (fun _ => none) true).entries⟩
      target w₂).2.1.files =
      w₂.files ++
        (filesUnder w₁ (kodi ++ [str "userdata"]) ++
         filesUnder w₁ (kodi ++ [str "addons"])).map
          (fun f => (target ++ f.1.drop kodi.length, f.2)) := by
    rw [hEX.2, hmapmap]
  have h0u : w₂.files.filter
      (fun g => (target ++ [str "userdata"]).isPrefixOf g.1) = [] := by
    rw [List.filter_eq_nil_iff]
    intro g hg hpg
    apply hempty g hg
    have hp : (target ++ [str "userdata"]) <+: g.1 := by simpa using hpg
    exact (List.prefix_append target [str "userdata"]).trans hp
  have h0a : w₂.files.filter
      (fun g => (target ++ [str "addons"]).isPrefixOf g.1) = [] := by
    rw [List.filter_eq_nil_iff]
    intro g hg hpg
    apply hempty g hg
    have hp : (target ++ [str "addons"]) <+: g.1 := by simpa using hpg
    exact (List.prefix_append target [str "addons"]).trans hp
  have h1u : ((filesUnder w₁ (kodi ++ [str "userdata"])).map
      (fun f => ((target ++ f.1.drop kodi.length : List Str), f.2))).filter
      (fun g => (target ++ [str "userdata"]).isPrefixOf g.1) =
      (filesUnder w₁ (kodi ++ [str "userdata"])).map
        (fun f => (target ++ f.1.drop kodi.length, f.2)) := by
    rw [List.filter_eq_self]
    intro g hg
    obtain ⟨f, hf, rfl⟩ := List.mem_map.mp hg
    simp only [List.isPrefixOf_iff_prefix]
    rw [hF1 f hf]
    rw [show str "userdata" :: f.1.drop (kodi ++ [str "userdata"]).length =
      [str "userdata"] ++ f.1.drop (kodi ++ [str "userdata"]).length from rfl,
      ← List.append_assoc]
    exact List.prefix_append _ _
  have h1a : ((filesUnder w₁ (kodi ++ [str "addons"])).map
      (fun f => ((target ++ f.1.drop kodi.length : List Str), f.2))).filter
      (fun g => (target ++ [str "addons"]).isPrefixOf g.1) =
      (filesUnder w₁ (kodi ++ [str "addons"])).map
        (fun f => (target ++ f.1.drop kodi.length, f.2)) := by
    rw [List.filter_eq_self]
    intro g hg
    obtain ⟨f, hf, rfl⟩ := List.mem_map.mp hg
    simp only [List.isPrefixOf_iff_prefix]
    rw [hF2 f hf]
    rw [show str "addons" :: f.1.drop (kodi ++ [str "addons"]).length =
      [str "addons"] ++ f.1.drop (kodi ++ [str "addons"]).length from rfl,
      ← List.append_assoc]
    exact List.prefix_append _ _
  have h2u : ((filesUnder w₁ (kodi ++ [str "addons"])).map
      (fun f => ((target ++ f.1.drop kodi.length : List Str), f.2))).filter
      (fun g => (target ++ [str "userdata"]).isPrefixOf g.1) = [] := by
    rw [List.filter_eq_nil_iff]
    intro g hg hpg
    obtain ⟨f, hf, rfl⟩ := List.mem_map.mp hg
    have hp : (target ++ [str "userdata"]) <+: target ++ f.1.drop kodi.length := by
      simpa using hpg
    rw [hF2 f hf] at hp
    have h3 := (List.prefix_append_right_inj target).mp hp
    rw [List.cons_prefix_cons] at h3
    exact absurd h3.1 (by decide)
  have h2a : ((filesUnder w₁ (kodi ++ [str "userdata"])).map
      (fun f => ((target ++ f.1.drop kodi.length : List Str), f.2))).filter
      (fun g => (target ++ [str "addons"]).isPrefixOf g.1) = [] := by
    rw [List.filter_eq_nil_iff]
    intro g hg hpg
    obtain ⟨f, hf, rfl⟩ := List.mem_map.mp hg
    have hp : (target ++ [str "addons"]) <+: target ++ f.1.drop kodi.length := by
      simpa using hpg
    rw [hF1 f hf] at hp
    have h3 := (List.prefix_append_right_inj target).mp hp
    rw [List.cons_prefix_cons] at h3
    exact absurd h3.1 (by decide)
  refine ⟨rfl, hEX.1, hfe, ?_, ?_⟩
  · rw [hfe, List.filter_append, List.map_append, List.filter_append,
      h0u, h1u, h2u]
    simp
  · rw [hfe, List.filter_append, List.map_append, List.filter_append,
      h0a, h1a, h2a]
    simp

/-- C3 counterexample: a POSIX source file literally named `a\b` under
`userdata` has its backslash rewritten to `/` when archived, so the round
trip through an empty target restores it at relative path `userdata/a/b`
instead of the original `userdata/a\b` — not "the same relative path" the
claim promises for every source tree. -/
theorem c3_roundtrip_counterexample :
    ((extract_backup_with_progress
      ⟨str "b.zip", .ok (buildBody
        { dirs := [[str "k"], [str "k", str "userdata"], [str "k", str "addons"]],
          files := [([str "k", str "userdata", str "a\\b"], [1])] }
        [str "k"] "f.zip" (fun _ => none) true).entries⟩
      [str "t"] { dirs := [[str "t"]], files := [] }).2.1.files =
      [([str "t", str "userdata", str "a", str "b"], [1])])
  ∧ ((extract_backup_with_progress
      ⟨str "b.zip", .ok (buildBody
        { dirs := [[str "k"], [str "k", str "userdata"], [str "k", str "addons"]],
          files := [([str "k", str "userdata", str "a\\b"], [1])] }
        [str "k"] "f.zip" (fun _ => none) true).entries⟩
      [str "t"] { dirs := [[str "t"]], files := [] }).2.1.files ≠
      [([str "t", str "userdata", str "a\\b"], [1])]) :=
  ⟨by decide, by decide⟩

/-- Witness for `c3_roundtrip_plain_names`: a two-file install (one file
under each subtree) with plain names round-trips into an empty target. -/
theorem c3_roundtrip_plain_names_witness :
    (extract_backup_with_progress
      ⟨str "b.zip", .ok (buildBody
        { dirs := [[str "k"], [str "k", str "userdata"], [str "k", str "addons"],
            [str "k", str "addons", str "b"]],
          files := [([str "k", str "userdata", str "a.txt"], [1]),
            ([str "k", str "addons", str "b", str "c.bin"], [2, 3])] }
        [str "k"] "f.zip" (fun _ => none) true).entries⟩
      [str "t"] { dirs := [[str "t"]], files := [] }).2.1.files =
      ({ dirs := [[str "t"]], files := [] } : World).files ++
        (filesUnder
          { dirs := [[str "k"], [str "k", str "userdata"], [str "k", str "addons"],
              [str "k", str "addons", str "b"]],
            files := [([str "k", str "userdata", str "a.txt"], [1]),
              ([str "k", str "addons", str "b", str "c.bin"], [2, 3])] }
          ([str "k"] ++ [str "userdata"]) ++
         filesUnder
          { dirs := [[str "k"], [str "k", str "userdata"], [str "k", str "addons"],
              [str "k", str "addons", str "b"]],
            files := [([str "k", str "userdata", str "a.txt"], [1]),
              ([str "k", str "addons", str "b", str "c.bin"], [2, 3])] }
          ([str "k"] ++ [str "addons"])).map
          (fun f => ([str "t"] ++ f.1.drop [str "k"].length, f.2)) :=
  (c3_roundtrip_plain_names
    { dirs := [[str "k"], [str "k", str "userdata"], [str "k", str "addons"],
        [str "k", str "addons", str "b"]],
      files := [([str "k", str "userdata", str "a.txt"], [1]),
        ([str "k", str "addons", str "b", str "c.bin"], [2, 3])] }
    [str "k"] { dirs := [[str "t"]], files := [] } [str "t"]
    (str "b.zip") "f.zip" (by decide) (by decide) (by decide) (by decide)
    (by decide) (by decide)).2.2.1

end KodiBackup
